import Mathlib

/-!
# ray_trace.cpp : a shallow embedding

The program is a small sphere ray tracer.  Its `float` values are embedded as
elements of an arbitrary linearly ordered field `α` with a floor function
(`ℚ` for evaluation, `ℝ` where square roots and trigonometry are needed), so
every arithmetic step is exact: rounding of binary floating point is not
modelled.  Arrays are functions on `Nat`, the C `int` indices are `Int`, and the
`unsigned char` cells of `image` are naturals below 256.

The header `ray_classes.h` is not part of the sources.  What `ray_trace.cpp`
calls from it is collected in the record `RayClasses`, which every definition
takes as a parameter; `specClasses` is one inhabitant written after the prose
specification of the geometry.
-/

namespace RayTrace

/-! ## Constants of `ray_trace.cpp` -/

/-- Line 21: `#define XDIM 600`. -/
def XDIM : Nat := 600

/-- Line 22: `#define YDIM 600`. -/
def YDIM : Nat := 600

/-- Line 23: `#define ZDIM 600`. -/
def ZDIM : Nat := 600

/-- Line 29: `const int SPHERES = 10;`. -/
def SPHERES : Nat := 10

/-! ## Value types declared in `ray_classes.h` -/

/-- Modelled from the spec: the class `Point3D` of the absent header
`ray_classes.h`, real-valued coordinates `px`, `py`, `pz` (the field names are
the ones `ray_trace.cpp` reads). -/
structure Point3D (α : Type) where
  px : α
  py : α
  pz : α

/-- Modelled from the spec: the class `Vector3D` of the absent header
`ray_classes.h`, components `vx`, `vy`, `vz`. -/
structure Vector3D (α : Type) where
  vx : α
  vy : α
  vz : α

/-- Modelled from the spec: the class `Ray3D` of the absent header
`ray_classes.h`, an origin point and a direction. -/
structure Ray3D (α : Type) where
  point : Point3D α
  dir : Vector3D α

/-- Modelled from the spec: the class `Sphere3D` of the absent header
`ray_classes.h`: centre, per-frame motion and radius. -/
structure Sphere3D (α : Type) where
  center : Point3D α
  motion : Vector3D α
  radius : α

/-- Modelled from the spec: the class `ColorRGB` of the absent header
`ray_classes.h`, three channels `R`, `G`, `B`. -/
structure ColorRGB (α : Type) where
  R : α
  G : α
  B : α

/-- Modelled from the spec: the state of a `Phong` shader of the absent header
`ray_classes.h`: the camera, one light (colour and direction) and the material
last given by `SetObject`. -/
structure Phong (α : Type) where
  camera : Point3D α
  lightColor : ColorRGB α
  lightDir : Vector3D α
  objColor : ColorRGB α
  Ka : α
  Kd : α
  Ks : α
  Kp : α

/-- Modelled from the spec: the member functions of the absent header
`ray_classes.h` whose bodies decide a value: `Vector3D::normalize`, the two
overloads of `Ray3D::set`, `Sphere3D::get_intersection` (its two output
parameters and boolean result are an `Option`: `some (point, normal)` stands for
`true`), and `Phong::GetShade`. -/
structure RayClasses (α : Type) where
  normalize : Vector3D α → Vector3D α
  ray_set_dir : Point3D α → Vector3D α → Ray3D α
  ray_set_point : Point3D α → Point3D α → Ray3D α
  get_intersection : Sphere3D α → Ray3D α → Option (Point3D α × Vector3D α)
  GetShade : Phong α → Point3D α → Vector3D α → ColorRGB α

section Model

variable {α : Type} [LinearOrderedField α] [FloorRing α]

/-- Modelled from the spec: `ColorRGB::set` of the absent header, which clamps
each channel into [0,255]. -/
def ColorRGB.set (r g b : α) : ColorRGB α :=
  ⟨max 0 (min 255 r), max 0 (min 255 g), max 0 (min 255 b)⟩

/-- Modelled from the spec: a default-constructed `Phong` shader of the absent
header; every field is overwritten by `SetCamera`, `SetLight` and `SetObject`
before `GetShade` is called. -/
def Phong.init : Phong α :=
  ⟨⟨0, 0, 0⟩, ⟨0, 0, 0⟩, ⟨0, 0, 0⟩, ⟨0, 0, 0⟩, 0, 0, 0, 0⟩

/-- Modelled from the spec: `Phong::SetCamera` of the absent header stores the
camera position. -/
def Phong.SetCamera (sh : Phong α) (camera : Point3D α) : Phong α :=
  { sh with camera := camera }

/-- Modelled from the spec: `Phong::SetLight` of the absent header stores the
light colour and direction. -/
def Phong.SetLight (sh : Phong α) (c : ColorRGB α) (d : Vector3D α) : Phong α :=
  { sh with lightColor := c, lightDir := d }

/-- Modelled from the spec: `Phong::SetObject` of the absent header stores the
material: base colour, ambient, diffuse and specular coefficients, shininess. -/
def Phong.SetObject (sh : Phong α) (c : ColorRGB α) (ka kd ks kp : α) : Phong α :=
  { sh with objColor := c, Ka := ka, Kd := kd, Ks := ks, Kp := kp }

/-! ## `in_shadow` (lines 47-61) -/

/-- The `for` loop of `in_shadow`, at loop variable `index` with `fuel`
iterations left; `hit index` is the result of
`sphere[index].get_intersection(shadow_ray, point, normal)`. -/
def in_shadow_loop (hit : Nat → Bool) (current : Int) : Nat → Nat → Bool
  | _, 0 => false
  | index, fuel + 1 =>
    if ((index : Int) != current) && hit index then true
    else in_shadow_loop hit current (index + 1) fuel

/-- The function `bool in_shadow(Point3D pt, Vector3D dir, int current, Sphere3D sphere[], int count)`.
The loop runs `index = 0, ..., count - 1`, so not at all when `count ≤ 0`. -/
def in_shadow (rc : RayClasses α) (pt : Point3D α) (dir : Vector3D α) (current : Int)
    (sphere : Nat → Sphere3D α) (count : Int) : Bool :=
  let shadow_ray := rc.ray_set_dir pt dir
  in_shadow_loop (fun index => (rc.get_intersection (sphere index) shadow_ray).isSome)
    current 0 count.toNat

/-! ## `ray_trace` (lines 66-193) -/

/-- Conversion of a floating value to an integer type in C: the fractional part
is discarded (rounding toward zero). -/
def trunc (q : α) : Int := if 0 ≤ q then ⌊q⌋ else ⌈q⌉

/-- Store of an integer into an `unsigned char` cell: reduction modulo 256. -/
def to_uchar (i : Int) : Nat := (i % 256).toNat

/-- One cell `image[y][x]`: three `unsigned char` channels. -/
structure Pixel where
  red : Nat
  green : Nat
  blue : Nat
deriving DecidableEq

/-- Line 24: `unsigned char image[YDIM][XDIM][3]`, indexed `image y x`. -/
abbrev Image := Nat → Nat → Pixel

/-- Lines 75-77: `light_dir1.set(-1,-1,-1); light_dir1.normalize();`. -/
def light_dir1 (rc : RayClasses α) : Vector3D α := rc.normalize ⟨-1, -1, -1⟩

/-- Lines 81-83: `light_dir2.set(1,1,1); light_dir2.normalize();`. -/
def light_dir2 (rc : RayClasses α) : Vector3D α := rc.normalize ⟨1, 1, 1⟩

/-- Lines 87-89: `light_dir3.set(1,0,0); light_dir3.normalize();`. -/
def light_dir3 (rc : RayClasses α) : Vector3D α := rc.normalize ⟨1, 0, 0⟩

/-- Lines 92-94: `shader1` after `SetCamera(camera)` and `SetLight(light_color1, light_dir1)`,
with `light_color1.set(250,250,250)`. -/
def shader1 (rc : RayClasses α) (camera : Point3D α) : Phong α :=
  (Phong.init.SetCamera camera).SetLight (ColorRGB.set 250 250 250) (light_dir1 rc)

/-- Lines 96-98: `shader2` after `SetCamera(camera)` and `SetLight(light_color2, light_dir2)`. -/
def shader2 (rc : RayClasses α) (camera : Point3D α) : Phong α :=
  (Phong.init.SetCamera camera).SetLight (ColorRGB.set 250 250 250) (light_dir2 rc)

/-- Lines 100-102: `shader3` after `SetCamera(camera)` and `SetLight(light_color3, light_dir3)`. -/
def shader3 (rc : RayClasses α) (camera : Point3D α) : Phong α :=
  (Phong.init.SetCamera camera).SetLight (ColorRGB.set 250 250 250) (light_dir3 rc)

/-- Lines 114-122: the sample point `(xpos, ypos, 0)` of pixel `(x, y)` on the
image plane; `XDIM/2` is an integer division. -/
def sample_point (x y : Nat) : Point3D α :=
  let xpos : α := (((x : Int) - ((XDIM / 2 : Nat) : Int) : Int) : α) * 2.0 / (XDIM : α)
  let ypos : α := (((y : Int) - ((YDIM / 2 : Nat) : Int) : Int) : α) * 2.0 / (YDIM : α)
  ⟨xpos, ypos, 0⟩

/-- Lines 68-70 and 120-122: the ray from `camera = (0,0,position)` through the
sample point of pixel `(x, y)`. -/
def primary_ray (rc : RayClasses α) (position : α) (x y : Nat) : Ray3D α :=
  rc.ray_set_point ⟨0, 0, position⟩ (sample_point x y)

/-- The variables `closest`, `closest_p`, `closest_n` of the closest-hit loop. -/
structure Closest (α : Type) where
  closest : Int
  closest_p : Point3D α
  closest_n : Vector3D α

/-- Lines 125-128: `closest = -1; closest_p.set(0,0,ZDIM);`.  The vector
`closest_n` is default-constructed and is read only after the loop has assigned
it; it is represented by the zero vector. -/
def closest_init : Closest α := ⟨-1, ⟨0, 0, (ZDIM : α)⟩, ⟨0, 0, 0⟩⟩

/-- Lines 131-136: the body of the closest-hit loop at index `s`. -/
def closest_step (rc : RayClasses α) (sphere : Nat → Sphere3D α) (ray : Ray3D α)
    (s : Nat) (st : Closest α) : Closest α :=
  match rc.get_intersection (sphere s) ray with
  | some (p, n) => if p.pz < st.closest_p.pz then ⟨(s : Int), p, n⟩ else st
  | none => st

/-- Lines 129-137: the state after the iterations `s = 0, ..., count - 1` of the
closest-hit loop. -/
def closest_loop (rc : RayClasses α) (sphere : Nat → Sphere3D α) (ray : Ray3D α) :
    Nat → Closest α
  | 0 => closest_init
  | s + 1 => closest_step rc sphere ray s (closest_loop rc sphere ray s)

/-- Lines 145-147: the three channels stored in normal mode.  The floating
value is truncated and stored in a byte; a value outside [0,255], for which
C++ leaves the conversion undefined, is reduced modulo 256 here. -/
def normal_pixel (n : Vector3D α) : Pixel :=
  ⟨to_uchar (trunc (127 + n.vx * 127)), to_uchar (trunc (127 + n.vy * 127)),
   to_uchar (trunc (127 + n.vz * 127))⟩

/-- Lines 156-158: the shadow test of the hit point against the three lights. -/
def any_shadow (rc : RayClasses α) (closest_p : Point3D α) (closest : Int)
    (sphere : Nat → Sphere3D α) : Bool :=
  in_shadow rc closest_p (light_dir1 rc) closest sphere SPHERES ||
  in_shadow rc closest_p (light_dir2 rc) closest sphere SPHERES ||
  in_shadow rc closest_p (light_dir3 rc) closest sphere SPHERES

/-- Lines 156-171: the three shaders after the `SetObject` calls of the branch
chosen by the shadow test. -/
def phong_shaders (rc : RayClasses α) (camera : Point3D α) (closest_p : Point3D α)
    (closest : Int) (sphere : Nat → Sphere3D α) (color : Nat → ColorRGB α) :
    Phong α × Phong α × Phong α :=
  if any_shadow rc closest_p closest sphere then
    ((shader1 rc camera).SetObject (color closest.toNat) 0.4 0.0 0.0 1,
     (shader2 rc camera).SetObject (color closest.toNat) 0.4 0.0 0.0 1,
     (shader3 rc camera).SetObject (color closest.toNat) 0.4 0.0 0.0 1)
  else
    ((shader1 rc camera).SetObject (color closest.toNat) 0.4 0.4 0.4 10,
     (shader2 rc camera).SetObject (color closest.toNat) 0.4 0.4 0.4 10,
     (shader3 rc camera).SetObject (color closest.toNat) 0.4 0.4 0.4 10)

/-- Lines 183-185: `int red = (pixel1.R + pixel2.R + pixel3.R) / 3;`. -/
def average (c1 c2 c3 : α) : Int := trunc ((c1 + c2 + c3) / 3)

/-- Lines 175-189: the pixel stored in phong mode from the three shades. -/
def phong_pixel (pixel1 pixel2 pixel3 : ColorRGB α) : Pixel :=
  let red := average pixel1.R pixel2.R pixel3.R
  let green := average pixel1.G pixel2.G pixel3.G
  let blue := average pixel1.B pixel2.B pixel3.B
  ⟨to_uchar red, to_uchar green, to_uchar blue⟩

/-- Lines 175-181: the shades `pixel1`, `pixel2`, `pixel3` that the three
shaders return for the selected hit. -/
def phong_shades (rc : RayClasses α) (camera : Point3D α) (c : Closest α)
    (sphere : Nat → Sphere3D α) (color : Nat → ColorRGB α) :
    ColorRGB α × ColorRGB α × ColorRGB α :=
  let sh := phong_shaders rc camera c.closest_p c.closest sphere color
  (rc.GetShade sh.1 c.closest_p c.closest_n,
   rc.GetShade sh.2.1 c.closest_p c.closest_n,
   rc.GetShade sh.2.2 c.closest_p c.closest_n)

/-- Lines 109-191: the value of `image[y][x]` at the end of the loop body for
pixel `(x, y)`. -/
def trace_pixel (rc : RayClasses α) (position : α) (mode : String)
    (sphere : Nat → Sphere3D α) (color : Nat → ColorRGB α) (x y : Nat) : Pixel :=
  let camera : Point3D α := ⟨0, 0, position⟩
  let cleared : Pixel := ⟨0, 0, 0⟩
  let ray := primary_ray rc position x y
  let c := closest_loop rc sphere ray SPHERES
  if c.closest ≥ 0 then
    let shown := if mode = "normal" then normal_pixel c.closest_n else cleared
    if mode = "phong" then
      let shades := phong_shades rc camera c sphere color
      phong_pixel shades.1 shades.2.1 shades.2.2
    else shown
  else cleared

/-- Assignment to the cell `image[y][x]`. -/
def set_pixel (image : Image) (y x : Nat) (p : Pixel) : Image :=
  fun y1 x1 => if y1 = y ∧ x1 = x then p else image y1 x1

/-- Line 107: the inner loop `for (x = 0; x < XDIM; x++)` of row `y`, after its
first `n` iterations. -/
def ray_trace_row (pix : Nat → Nat → Pixel) (y : Nat) : Nat → Image → Image
  | 0, image => image
  | x + 1, image => set_pixel (ray_trace_row pix y x image) y x (pix x y)

/-- Line 106: the outer loop `for (y = 0; y < YDIM; y++)`, after its first `n`
iterations. -/
def ray_trace_rows (pix : Nat → Nat → Pixel) : Nat → Image → Image
  | 0, image => image
  | y + 1, image => ray_trace_row pix y XDIM (ray_trace_rows pix y image)

/-- The global variables of `ray_trace.cpp` (lines 24-34) that the callbacks
read or write. -/
structure Globals (α : Type) where
  image : Image
  position : α
  mode : String
  sphere : Nat → Sphere3D α
  color : Nat → ColorRGB α
  centerRadius : α
  angle : α

/-- The function `void ray_trace()`: every cell of `image` is recomputed. -/
def ray_trace (rc : RayClasses α) (g : Globals α) : Globals α :=
  { g with image :=
      ray_trace_rows (trace_pixel rc g.position g.mode g.sphere g.color) YDIM g.image }

/-! ## The callbacks `keyboard`, `timer` and the set-up in `main` -/

/-- The callback `void keyboard(unsigned char key, int x, int y)`; `none` is `exit(0)`. -/
def keyboard (rc : RayClasses α) (key : Char) (g : Globals α) : Option (Globals α) :=
  if key = 'q' then none
  else
    let g1 : Globals α :=
      if key = '+' ∧ g.position > -10 then { g with position := g.position - 0.5 }
      else if key = '-' ∧ g.position < -5 then { g with position := g.position + 0.5 }
      else if key = 'n' then { g with mode := "normal" }
      else if key = 'p' then { g with mode := "phong" }
      else g
    some (ray_trace rc g1)

/-- The key presses of a list handled one after the other, from the left. -/
def keyboard_run (rc : RayClasses α) : List Char → Globals α → Option (Globals α)
  | [], g => some g
  | key :: keys, g =>
    match keyboard rc key g with
    | some g1 => keyboard_run rc keys g1
    | none => none

/-- The callback `void timer(int value)`, with the library functions `cos` and `sin` as
parameters. -/
def timer (rc : RayClasses α) (cos sin : α → α) (g : Globals α) : Globals α :=
  let angle := g.angle + 0.1
  let sphereA := Function.update g.sphere 1
    { (g.sphere 1) with
      center := { (g.sphere 1).center with
                  px := (g.sphere 0).center.px + g.centerRadius * cos angle } }
  let sphereB := Function.update sphereA 1
    { (sphereA 1) with
      center := { (sphereA 1).center with
                  py := (sphereA 0).center.py + g.centerRadius * sin angle } }
  ray_trace rc { g with angle := angle, sphere := sphereB }

/-- The state after `n` ticks of `timer`. -/
def timer_run (rc : RayClasses α) (cos sin : α → α) : Nat → Globals α → Globals α
  | 0, g => g
  | n + 1, g => timer rc cos sin (timer_run rc cos sin n g)

/-- Lines 323-325 of `main`: `centerRadius = sqrt(pow(dx,2) + pow(dy,2) + pow(dz,2))`,
with the library function `sqrt` as a parameter. -/
def main_centerRadius (sqrt : α → α) (g : Globals α) : Globals α :=
  let dx := (g.sphere 1).center.px - (g.sphere 0).center.px
  let dy := (g.sphere 1).center.py - (g.sphere 0).center.py
  let dz := (g.sphere 1).center.pz - (g.sphere 0).center.pz
  { g with centerRadius := sqrt (dx ^ 2 + dy ^ 2 + dz ^ 2) }

/-! ## The geometry of `ray_classes.h`, after the specification -/

/-- Modelled from the spec: the dot product of `Vector3D` (absent header
`ray_classes.h`). -/
def Vector3D.dot (a b : Vector3D α) : α := a.vx * b.vx + a.vy * b.vy + a.vz * b.vz

/-- Modelled from the spec: the difference of two points as a vector (absent
header `ray_classes.h`). -/
def Point3D.sub (a b : Point3D α) : Vector3D α := ⟨a.px - b.px, a.py - b.py, a.pz - b.pz⟩

/-- Modelled from the spec: `Vector3D::normalize` of the absent header divides
each component by the magnitude; `sqrt` is the library square root. -/
def spec_normalize (sqrt : α → α) (v : Vector3D α) : Vector3D α :=
  let m := sqrt (v.dot v)
  ⟨v.vx / m, v.vy / m, v.vz / m⟩

/-- Modelled from the spec: `makeRay(origin, direction)`, that is
`Ray3D::set(Point3D, Vector3D)` of the absent header, stores the origin and the
normalized direction. -/
def spec_ray_set_dir (sqrt : α → α) (origin : Point3D α) (dir : Vector3D α) : Ray3D α :=
  ⟨origin, spec_normalize sqrt dir⟩

/-- Modelled from the spec: `makeRayThrough(origin, target)`, that is
`Ray3D::set(Point3D, Point3D)` of the absent header, with direction
`normalize(target − origin)`. -/
def spec_ray_set_point (sqrt : α → α) (origin target : Point3D α) : Ray3D α :=
  ⟨origin, spec_normalize sqrt (target.sub origin)⟩

/-- Modelled from the spec: `Sphere3D::get_intersection` of the absent header.
With `oc = origin − center` the equation `t² + 2·t·(dir·oc) + (oc·oc − r²) = 0`
is solved; a negative discriminant is a miss; of the two roots the smaller one
that exceeds `eps` is taken; the hit point is `origin + t·dir` and the normal is
`normalize(hitPoint − center)`. -/
def spec_get_intersection (sqrt : α → α) (eps : α) (s : Sphere3D α) (ray : Ray3D α) :
    Option (Point3D α × Vector3D α) :=
  let oc := ray.point.sub s.center
  let b := 2 * ray.dir.dot oc
  let c := oc.dot oc - s.radius ^ 2
  let disc := b * b - 4 * c
  if disc < 0 then none
  else
    let t1 := (-b - sqrt disc) / 2
    let t2 := (-b + sqrt disc) / 2
    let hit (t : α) : Point3D α × Vector3D α :=
      let p : Point3D α :=
        ⟨ray.point.px + t * ray.dir.vx, ray.point.py + t * ray.dir.vy,
         ray.point.pz + t * ray.dir.vz⟩
      (p, spec_normalize sqrt (p.sub s.center))
    if eps < t1 then some (hit t1)
    else if eps < t2 then some (hit t2)
    else none

/-- Modelled from the spec: `Phong::GetShade` of the absent header: ambient
`kA·base`, diffuse `kD·max(0, n·L)·base`, specular
`kS·max(0, r·v)^shininess·lightColor` with `r = 2(n·L)n − L` and
`v = normalize(camera − point)`, the sum clamped per channel; `L` is the stored
light direction and the shininess is used as a natural exponent. -/
def spec_GetShade (sqrt : α → α) (sh : Phong α) (point : Point3D α) (normal : Vector3D α) :
    ColorRGB α :=
  let nl := normal.dot sh.lightDir
  let r : Vector3D α :=
    ⟨2 * nl * normal.vx - sh.lightDir.vx, 2 * nl * normal.vy - sh.lightDir.vy,
     2 * nl * normal.vz - sh.lightDir.vz⟩
  let v := spec_normalize sqrt (sh.camera.sub point)
  let d := sh.Kd * max 0 nl
  let sp := sh.Ks * (max 0 (r.dot v)) ^ ⌊sh.Kp⌋₊
  ColorRGB.set (sh.Ka * sh.objColor.R + d * sh.objColor.R + sp * sh.lightColor.R)
    (sh.Ka * sh.objColor.G + d * sh.objColor.G + sp * sh.lightColor.G)
    (sh.Ka * sh.objColor.B + d * sh.objColor.B + sp * sh.lightColor.B)

/-- Modelled from the spec: the operations of the absent header
`ray_classes.h` as sections 4.1-4.6 of the specification describe them, over
the square root `sqrt` and the hit threshold `eps`. -/
def specClasses (sqrt : α → α) (eps : α) : RayClasses α where
  normalize := spec_normalize sqrt
  ray_set_dir := spec_ray_set_dir sqrt
  ray_set_point := spec_ray_set_point sqrt
  get_intersection := spec_get_intersection sqrt eps
  GetShade := spec_GetShade sqrt

/-- A sphere at rest with centre `(cx, cy, cz)` and radius `r`. -/
def still_sphere (cx cy cz r : α) : Sphere3D α := ⟨⟨cx, cy, cz⟩, ⟨0, 0, 0⟩, r⟩

/-! ## Concrete scenes -/

/-- The end-to-end scene of the specification in the ten slots of `sphere`: a
sphere of radius 2 centred at the origin in slot 0, and in the other slots unit
spheres centred at `(100,0,0)`, away from the z axis. -/
def scenario_scene (s : Nat) : Sphere3D α :=
  if s = 0 then still_sphere 0 0 0 2 else still_sphere 100 0 0 1

/-- A scene whose spheres all lie away from the z axis. -/
def offaxis_scene (_s : Nat) : Sphere3D α := still_sphere 100 0 0 1

/-- A scene whose spheres all sit on the z axis beyond depth `ZDIM`. -/
def far_scene (_s : Nat) : Sphere3D α := still_sphere 0 0 700 2

/-- Globals with the camera at `(0,0,-5)`, a buffer filled with `(9,9,9)` and one
base colour for every sphere. -/
def globals_of (mode : String) (sphere : Nat → Sphere3D α) : Globals α :=
  ⟨fun _ _ => ⟨9, 9, 9⟩, -5, mode, sphere, fun _ => ⟨200, 100, 50⟩, 0, 0⟩

/-! ## Predicates used in the statements -/

/-- The material a shader holds: base colour, `kA`, `kD`, `kS` and shininess. -/
def has_material (sh : Phong α) (c : ColorRGB α) (ka kd ks kp : α) : Prop :=
  sh.objColor = c ∧ sh.Ka = ka ∧ sh.Kd = kd ∧ sh.Ks = ks ∧ sh.Kp = kp

/-- Every channel of the colour lies in [0,255]. -/
def channels_in_range (c : ColorRGB α) : Prop :=
  (0 ≤ c.R ∧ c.R ≤ 255) ∧ (0 ≤ c.G ∧ c.G ≤ 255) ∧ (0 ≤ c.B ∧ c.B ≤ 255)

/-- Every component of the vector lies in [-1,1]. -/
def components_in_unit_range (n : Vector3D α) : Prop :=
  (-1 ≤ n.vx ∧ n.vx ≤ 1) ∧ (-1 ≤ n.vy ∧ n.vy ≤ 1) ∧ (-1 ≤ n.vz ∧ n.vz ≤ 1)

end Model

/-! ## Theorems -/

section Proofs

variable {α : Type}

/-- The loop of `in_shadow` started at `index` with `fuel` iterations left answers
`true` exactly when one of the indices it visits is not `current` and is hit. -/
theorem in_shadow_loop_iff (hit : Nat → Bool) (current : Int) (fuel index : Nat) :
    in_shadow_loop hit current index fuel = true ↔
      ∃ i : Nat, index ≤ i ∧ i < index + fuel ∧ (i : Int) ≠ current ∧ hit i = true := by
  induction fuel generalizing index with
  | zero =>
    simp only [in_shadow_loop, add_zero]
    constructor
    · intro h
      cases h
    · rintro ⟨i, h1, h2, -⟩
      omega
  | succ fuel ih =>
    rw [in_shadow_loop]
    by_cases hc : (((index : Int) != current) && hit index) = true
    · rw [if_pos hc]
      simp only [Bool.and_eq_true, bne_iff_ne, ne_eq] at hc
      exact ⟨fun _ => ⟨index, le_refl _, by omega, hc.1, hc.2⟩, fun _ => rfl⟩
    · rw [if_neg hc, ih]
      simp only [Bool.and_eq_true, bne_iff_ne, ne_eq, not_and] at hc
      constructor
      · rintro ⟨i, h1, h2, h3, h4⟩
        exact ⟨i, by omega, by omega, h3, h4⟩
      · rintro ⟨i, h1, h2, h3, h4⟩
        have hne : i ≠ index := by
          rintro rfl
          exact hc h3 h4
        exact ⟨i, by omega, by omega, h3, h4⟩

/-- C1: `in_shadow(pt, dir, current, sphere, count)` is true exactly when some
index `i` with `0 ≤ i < count` and `i ≠ current` has `sphere[i].get_intersection`
report a hit for the shadow ray built from `(pt, dir)`.  In particular it is
false when no sphere other than the owner is hit, false for `count = 0` and for
a scene holding only the owner, and true once a non-owner sphere is hit. -/
theorem in_shadow_iff_other_sphere_hit (rc : RayClasses α) (pt : Point3D α)
    (dir : Vector3D α) (current : Int) (sphere : Nat → Sphere3D α) (count : Int) :
    (in_shadow rc pt dir current sphere count = true ↔
      ∃ i : Nat, (i : Int) < count ∧ (i : Int) ≠ current ∧
        (rc.get_intersection (sphere i) (rc.ray_set_dir pt dir)).isSome = true) ∧
    ((∀ i : Nat, (i : Int) < count → (i : Int) ≠ current →
        rc.get_intersection (sphere i) (rc.ray_set_dir pt dir) = none) →
      in_shadow rc pt dir current sphere count = false) ∧
    in_shadow rc pt dir current sphere 0 = false ∧
    in_shadow rc pt dir 0 sphere 1 = false ∧
    (∀ i : Nat, (i : Int) < count → (i : Int) ≠ current →
      (rc.get_intersection (sphere i) (rc.ray_set_dir pt dir)).isSome = true →
      in_shadow rc pt dir current sphere count = true) := by
  have key : ∀ (cur cnt : Int), in_shadow rc pt dir cur sphere cnt = true ↔
      ∃ i : Nat, (i : Int) < cnt ∧ (i : Int) ≠ cur ∧
        (rc.get_intersection (sphere i) (rc.ray_set_dir pt dir)).isSome = true := by
    intro cur cnt
    unfold in_shadow
    simp only [in_shadow_loop_iff, zero_add, Nat.zero_le, true_and]
    constructor
    · rintro ⟨i, h1, h2, h3⟩
      exact ⟨i, by omega, h2, h3⟩
    · rintro ⟨i, h1, h2, h3⟩
      exact ⟨i, by omega, h2, h3⟩
  refine ⟨key current count, ?_, ?_, ?_, ?_⟩
  · intro h
    rw [← Bool.not_eq_true, key]
    rintro ⟨i, h1, h2, h3⟩
    rw [h i h1 h2] at h3
    cases h3
  · rw [← Bool.not_eq_true, key]
    rintro ⟨i, h1, -, -⟩
    omega
  · rw [← Bool.not_eq_true, key]
    rintro ⟨i, h1, h2, -⟩
    omega
  · intro i h1 h2 h3
    exact (key current count).2 ⟨i, h1, h2, h3⟩

/-- What the closest-hit loop has established after its first `k` iterations:
either nothing nearer than `ZDIM` was hit and the variables hold their initial
values, or `closest` is the lowest index among the nearest hits seen. -/
theorem closest_loop_inv [LinearOrderedField α] (rc : RayClasses α)
    (sphere : Nat → Sphere3D α) (ray : Ray3D α) (k : Nat) :
    ((closest_loop rc sphere ray k).closest = -1 ∧
      (closest_loop rc sphere ray k).closest_p.pz = (ZDIM : α) ∧
      ∀ s, s < k → ∀ p n, rc.get_intersection (sphere s) ray = some (p, n) →
        ¬ p.pz < (ZDIM : α)) ∨
    (∃ s, s < k ∧ (closest_loop rc sphere ray k).closest = (s : Int) ∧
      rc.get_intersection (sphere s) ray =
        some ((closest_loop rc sphere ray k).closest_p,
              (closest_loop rc sphere ray k).closest_n) ∧
      (closest_loop rc sphere ray k).closest_p.pz < (ZDIM : α) ∧
      (∀ t, t < k → ∀ p n, rc.get_intersection (sphere t) ray = some (p, n) →
        (closest_loop rc sphere ray k).closest_p.pz ≤ p.pz) ∧
      (∀ t, t < s → ∀ p n, rc.get_intersection (sphere t) ray = some (p, n) →
        (closest_loop rc sphere ray k).closest_p.pz < p.pz)) := by
  induction k with
  | zero =>
    left
    refine ⟨rfl, rfl, ?_⟩
    intro s hs
    omega
  | succ k ih =>
    rw [closest_loop]
    generalize closest_loop rc sphere ray k = st at ih
    unfold closest_step
    cases hk : rc.get_intersection (sphere k) ray with
    | none =>
      simp only
      rcases ih with ⟨h1, h2, h3⟩ | ⟨s, hs, h1, h2, h3, h4, h5⟩
      · left
        refine ⟨h1, h2, ?_⟩
        intro t ht p n hp
        rcases Nat.lt_succ_iff_lt_or_eq.1 ht with ht | rfl
        · exact h3 t ht p n hp
        · rw [hk] at hp
          cases hp
      · right
        refine ⟨s, by omega, h1, h2, h3, ?_, h5⟩
        intro t ht p n hp
        rcases Nat.lt_succ_iff_lt_or_eq.1 ht with ht | rfl
        · exact h4 t ht p n hp
        · rw [hk] at hp
          cases hp
    | some pn =>
      obtain ⟨p0, n0⟩ := pn
      simp only
      by_cases hlt : p0.pz < st.closest_p.pz
      · rw [if_pos hlt]
        right
        refine ⟨k, by omega, rfl, hk, ?_, ?_, ?_⟩
        · rcases ih with ⟨-, h2, -⟩ | ⟨s, -, -, -, h3, -, -⟩
          · rw [h2] at hlt
            exact hlt
          · exact lt_trans hlt h3
        · intro t ht p n hp
          rcases Nat.lt_succ_iff_lt_or_eq.1 ht with ht | rfl
          · rcases ih with ⟨-, h2, h3⟩ | ⟨s, -, -, -, -, h4, -⟩
            · have := h3 t ht p n hp
              rw [h2] at hlt
              exact le_of_lt (lt_of_lt_of_le hlt (not_lt.1 this))
            · exact le_trans (le_of_lt hlt) (h4 t ht p n hp)
          · rw [hk] at hp
            cases hp
            exact le_refl _
        · intro t ht p n hp
          rcases ih with ⟨-, h2, h3⟩ | ⟨s, -, -, -, -, h4, -⟩
          · have := h3 t ht p n hp
            rw [h2] at hlt
            exact lt_of_lt_of_le hlt (not_lt.1 this)
          · exact lt_of_lt_of_le hlt (h4 t ht p n hp)
      · rw [if_neg hlt]
        rcases ih with ⟨h1, h2, h3⟩ | ⟨s, hs, h1, h2, h3, h4, h5⟩
        · left
          refine ⟨h1, h2, ?_⟩
          intro t ht p n hp
          rcases Nat.lt_succ_iff_lt_or_eq.1 ht with ht | rfl
          · exact h3 t ht p n hp
          · rw [hk] at hp
            cases hp
            rw [h2] at hlt
            exact hlt
        · right
          refine ⟨s, by omega, h1, h2, h3, ?_, h5⟩
          intro t ht p n hp
          rcases Nat.lt_succ_iff_lt_or_eq.1 ht with ht | rfl
          · exact h4 t ht p n hp
          · rw [hk] at hp
            cases hp
            exact not_lt.1 hlt

/-- The inner loop of `ray_trace` writes `pix x y` into the first `n` cells of
row `y` and leaves every other cell alone. -/
theorem ray_trace_row_apply (pix : Nat → Nat → Pixel) (y n : Nat) (image : Image)
    (y1 x1 : Nat) :
    ray_trace_row pix y n image y1 x1 =
      if y1 = y ∧ x1 < n then pix x1 y1 else image y1 x1 := by
  induction n with
  | zero => simp [ray_trace_row]
  | succ n ih =>
    rw [ray_trace_row, set_pixel, ih]
    by_cases hy : y1 = y
    · subst hy
      by_cases hx : x1 = n
      · subst hx
        simp
      · by_cases hlt : x1 < n
        · have : x1 < n + 1 := by omega
          simp [hx, hlt, this]
        · have : ¬ x1 < n + 1 := by omega
          simp [hx, hlt, this]
    · simp [hy]

/-- The outer loop of `ray_trace` writes `pix x y` into every cell of its first
`m` rows and leaves the other rows alone. -/
theorem ray_trace_rows_apply (pix : Nat → Nat → Pixel) (m : Nat) (image : Image)
    (y1 x1 : Nat) :
    ray_trace_rows pix m image y1 x1 =
      if y1 < m ∧ x1 < XDIM then pix x1 y1 else image y1 x1 := by
  induction m with
  | zero => simp [ray_trace_rows]
  | succ m ih =>
    rw [ray_trace_rows, ray_trace_row_apply, ih]
    by_cases hx : x1 < XDIM
    · by_cases hy : y1 = m
      · subst hy
        simp [hx]
      · by_cases hlt : y1 < m
        · have : y1 < m + 1 := by omega
          simp [hx, hy, hlt, this]
        · have : ¬ y1 < m + 1 := by omega
          simp [hx, hy, hlt, this]
    · simp [hx]

/-- After `ray_trace` every cell of the 600x600 buffer holds the value computed
for its pixel, whatever the buffer held before. -/
theorem ray_trace_image [LinearOrderedField α] [FloorRing α] (rc : RayClasses α)
    (g : Globals α) (x y : Nat) (hx : x < XDIM) (hy : y < YDIM) :
    (ray_trace rc g).image y x = trace_pixel rc g.position g.mode g.sphere g.color x y := by
  simp [ray_trace, ray_trace_rows_apply, hx, hy]

/-- The function `ray_trace` writes the image only. -/
theorem ray_trace_frame [LinearOrderedField α] [FloorRing α] (rc : RayClasses α)
    (g : Globals α) :
    (ray_trace rc g).position = g.position ∧ (ray_trace rc g).mode = g.mode ∧
    (ray_trace rc g).sphere = g.sphere ∧ (ray_trace rc g).color = g.color ∧
    (ray_trace rc g).centerRadius = g.centerRadius ∧ (ray_trace rc g).angle = g.angle :=
  ⟨rfl, rfl, rfl, rfl, rfl, rfl⟩

/-- The closest-hit loop selects a sphere exactly when some sphere is hit at a
depth below `ZDIM`. -/
theorem closest_nonneg_iff [LinearOrderedField α] (rc : RayClasses α)
    (sphere : Nat → Sphere3D α) (ray : Ray3D α) (k : Nat) :
    0 ≤ (closest_loop rc sphere ray k).closest ↔
      ∃ s, s < k ∧ ∃ p n, rc.get_intersection (sphere s) ray = some (p, n) ∧
        p.pz < (ZDIM : α) := by
  rcases closest_loop_inv rc sphere ray k with ⟨h1, -, h3⟩ | ⟨s, hs, h1, h2, h3, -, -⟩
  · rw [h1]
    constructor
    · intro h
      omega
    · rintro ⟨s, hs, p, n, hp, hlt⟩
      exact absurd hlt (h3 s hs p n hp)
  · rw [h1]
    constructor
    · intro _
      exact ⟨s, hs, _, _, h2, h3⟩
    · intro _
      exact Int.natCast_nonneg s

/-- A pixel for which the closest-hit loop selects no sphere keeps the cleared
value. -/
theorem trace_pixel_of_no_closest [LinearOrderedField α] [FloorRing α] (rc : RayClasses α)
    (position : α) (mode : String) (sphere : Nat → Sphere3D α) (color : Nat → ColorRGB α)
    (x y : Nat)
    (h : ¬ 0 ≤ (closest_loop rc sphere (primary_ray rc position x y) SPHERES).closest) :
    trace_pixel rc position mode sphere color x y = ⟨0, 0, 0⟩ := by
  unfold trace_pixel
  simp only [ge_iff_le]
  rw [if_neg h]

/-- C2 (amended): for every ray and scene, if some sphere reports an
intersection whose hit point has depth `pz` below `ZDIM = 600`, the closest-hit
loop of `ray_trace` selects a sphere (`closest ≥ 0`); `closest_p` and `closest_n`
are the hit point and normal that sphere reports; its depth is at most the depth
of every intersecting sphere's hit point; and among the spheres whose hits have
that minimal depth it is the one with the lowest index. -/
theorem closest_hit_is_nearest_lowest_index [LinearOrderedField α] (rc : RayClasses α)
    (sphere : Nat → Sphere3D α) (ray : Ray3D α)
    (h : ∃ s, s < SPHERES ∧ ∃ p n, rc.get_intersection (sphere s) ray = some (p, n) ∧
      p.pz < (ZDIM : α)) :
    0 ≤ (closest_loop rc sphere ray SPHERES).closest ∧
    ∃ s, s < SPHERES ∧ (closest_loop rc sphere ray SPHERES).closest = (s : Int) ∧
      rc.get_intersection (sphere s) ray =
        some ((closest_loop rc sphere ray SPHERES).closest_p,
              (closest_loop rc sphere ray SPHERES).closest_n) ∧
      (∀ t, t < SPHERES → ∀ p n, rc.get_intersection (sphere t) ray = some (p, n) →
        (closest_loop rc sphere ray SPHERES).closest_p.pz ≤ p.pz) ∧
      (∀ t, t < SPHERES → ∀ p n, rc.get_intersection (sphere t) ray = some (p, n) →
        p.pz = (closest_loop rc sphere ray SPHERES).closest_p.pz → s ≤ t) := by
  have hnn := (closest_nonneg_iff rc sphere ray SPHERES).2 h
  refine ⟨hnn, ?_⟩
  rcases closest_loop_inv rc sphere ray SPHERES with ⟨h1, -, -⟩ | ⟨s, hs, h1, h2, -, h4, h5⟩
  · rw [h1] at hnn
    omega
  · refine ⟨s, hs, h1, h2, h4, ?_⟩
    intro t _ p n hp heq
    by_contra hlt
    have := h5 t (not_le.1 hlt) p n hp
    rw [heq] at this
    exact lt_irrefl _ this

/-- C10: the closest-hit loop of `ray_trace` has a far limit at depth
`ZDIM = 600`: a sphere is selected (`closest ≥ 0`) if and only if some sphere
reports an intersection whose hit point has `pz < 600`; and a pixel whose
primary ray is intersected only at depths `pz ≥ 600` is left at the background
`(0,0,0)` by `ray_trace`, in every mode and whatever the buffer held. -/
theorem closest_selected_iff_hit_below_ZDIM [LinearOrderedField α] [FloorRing α]
    (rc : RayClasses α) (g : Globals α) (ray : Ray3D α) (x y : Nat) :
    (0 ≤ (closest_loop rc g.sphere ray SPHERES).closest ↔
      ∃ s, s < SPHERES ∧ ∃ p n, rc.get_intersection (g.sphere s) ray = some (p, n) ∧
        p.pz < 600) ∧
    (x < XDIM → y < YDIM →
      (∀ s, s < SPHERES → ∀ p n,
        rc.get_intersection (g.sphere s) (primary_ray rc g.position x y) = some (p, n) →
          600 ≤ p.pz) →
      (ray_trace rc g).image y x = ⟨0, 0, 0⟩) := by
  have hz : ((ZDIM : Nat) : α) = 600 := by
    simp [ZDIM]
  constructor
  · rw [closest_nonneg_iff, hz]
  · intro hx hy hfar
    rw [ray_trace_image rc g x y hx hy]
    apply trace_pixel_of_no_closest
    rw [closest_nonneg_iff, hz]
    rintro ⟨s, hs, p, n, hp, hlt⟩
    exact absurd hlt (not_lt.2 (hfar s hs p n hp))

/-- C4: for every scene, camera position, display mode and prior content of
the image buffer, after `ray_trace` every pixel `(x, y)` of the raster whose
primary ray is intersected by no sphere holds `(0,0,0)`; hence when no sphere
intersects any primary ray the whole 600x600 buffer is `(0,0,0)`. -/
theorem no_hit_pixel_is_black [LinearOrderedField α] [FloorRing α]
    (rc : RayClasses α) (g : Globals α) :
    (∀ x y, x < 600 → y < 600 →
      (∀ s, s < SPHERES →
        rc.get_intersection (g.sphere s) (primary_ray rc g.position x y) = none) →
      (ray_trace rc g).image y x = ⟨0, 0, 0⟩) ∧
    ((∀ x y s, x < 600 → y < 600 → s < SPHERES →
        rc.get_intersection (g.sphere s) (primary_ray rc g.position x y) = none) →
      ∀ x y, x < 600 → y < 600 → (ray_trace rc g).image y x = ⟨0, 0, 0⟩) := by
  have point : ∀ x y, x < 600 → y < 600 →
      (∀ s, s < SPHERES →
        rc.get_intersection (g.sphere s) (primary_ray rc g.position x y) = none) →
      (ray_trace rc g).image y x = ⟨0, 0, 0⟩ := by
    intro x y hx hy hmiss
    rw [ray_trace_image rc g x y hx hy]
    apply trace_pixel_of_no_closest
    rw [closest_nonneg_iff]
    rintro ⟨s, hs, p, n, hp, -⟩
    rw [hmiss s hs] at hp
    cases hp
  exact ⟨point, fun h x y hx hy => point x y hx hy (fun s hs => h x y s hx hy hs)⟩

/-- The sample point of the raster centre `(300, 300)` is the origin. -/
theorem sample_point_center [LinearOrderedField α] :
    (sample_point 300 300 : Point3D α) = ⟨0, 0, 0⟩ := by
  simp [sample_point, XDIM, YDIM]

/-- Normalizing a vector along the positive z axis gives `(0,0,1)`, for a square
root that is exact on squares. -/
theorem spec_normalize_pos_z [LinearOrderedField α] (sqrt : α → α)
    (hsq : ∀ a : α, 0 ≤ a → sqrt (a * a) = a) (z : α) (hz : 0 < z) :
    spec_normalize sqrt ⟨0, 0, z⟩ = ⟨0, 0, 1⟩ := by
  have hm : sqrt (0 * 0 + 0 * 0 + z * z) = z := by
    rw [show (0 : α) * 0 + 0 * 0 + z * z = z * z by ring]
    exact hsq z hz.le
  simp only [spec_normalize, Vector3D.dot, hm, zero_div, div_self hz.ne']

/-- Normalizing a vector along the negative z axis gives `(0,0,-1)`, for a
square root that is exact on squares. -/
theorem spec_normalize_neg_z [LinearOrderedField α] (sqrt : α → α)
    (hsq : ∀ a : α, 0 ≤ a → sqrt (a * a) = a) (z : α) (hz : z < 0) :
    spec_normalize sqrt ⟨0, 0, z⟩ = ⟨0, 0, -1⟩ := by
  have hm : sqrt (0 * 0 + 0 * 0 + z * z) = -z := by
    rw [show (0 : α) * 0 + 0 * 0 + z * z = (-z) * (-z) by ring]
    exact hsq (-z) (by linarith)
  have hq : z / -z = -1 := by
    rw [div_neg, div_self hz.ne]
  simp only [spec_normalize, Vector3D.dot, hm, zero_div, hq, neg_zero]

/-- The primary ray of the raster centre runs from the camera along `(0,0,1)`
when the camera is in front of the image plane. -/
theorem primary_ray_center [LinearOrderedField α] [FloorRing α] (sqrt : α → α) (eps : α)
    (hsq : ∀ a : α, 0 ≤ a → sqrt (a * a) = a) (position : α) (hpos : position < 0) :
    primary_ray (specClasses sqrt eps) position 300 300 = ⟨⟨0, 0, position⟩, ⟨0, 0, 1⟩⟩ := by
  have h := spec_normalize_pos_z sqrt hsq (0 - position) (by linarith)
  simp only [primary_ray, sample_point_center, specClasses, spec_ray_set_point, Point3D.sub,
    sub_self, h]

/-- A sphere centred on the z axis in front of the camera is hit by the axis ray
at its near pole, with normal `(0,0,-1)`. -/
theorem spec_axis_hit [LinearOrderedField α] [FloorRing α] (sqrt : α → α) (eps : α)
    (hsq : ∀ a : α, 0 ≤ a → sqrt (a * a) = a) (position cz r : α) (hr : 0 < r)
    (heps : eps < cz - position - r) :
    (specClasses sqrt eps).get_intersection (still_sphere 0 0 cz r)
        ⟨⟨0, 0, position⟩, ⟨0, 0, 1⟩⟩ = some (⟨0, 0, cz - r⟩, ⟨0, 0, -1⟩) := by
  have hd : sqrt (2 * (0 * (0 - 0) + 0 * (0 - 0) + 1 * (position - cz)) *
        (2 * (0 * (0 - 0) + 0 * (0 - 0) + 1 * (position - cz))) -
      4 * ((0 - 0) * (0 - 0) + (0 - 0) * (0 - 0) + (position - cz) * (position - cz) - r ^ 2))
      = 2 * r := by
    rw [show 2 * (0 * ((0 : α) - 0) + 0 * (0 - 0) + 1 * (position - cz)) *
        (2 * (0 * (0 - 0) + 0 * (0 - 0) + 1 * (position - cz))) -
      4 * ((0 - 0) * (0 - 0) + (0 - 0) * (0 - 0) + (position - cz) * (position - cz) - r ^ 2)
      = (2 * r) * (2 * r) by ring]
    exact hsq (2 * r) (by linarith)
  have hdisc : ¬ (2 * (0 * ((0 : α) - 0) + 0 * (0 - 0) + 1 * (position - cz)) *
        (2 * (0 * (0 - 0) + 0 * (0 - 0) + 1 * (position - cz))) -
      4 * ((0 - 0) * (0 - 0) + (0 - 0) * (0 - 0) + (position - cz) * (position - cz) - r ^ 2)
      < 0) := by
    rw [show 2 * (0 * ((0 : α) - 0) + 0 * (0 - 0) + 1 * (position - cz)) *
        (2 * (0 * (0 - 0) + 0 * (0 - 0) + 1 * (position - cz))) -
      4 * ((0 - 0) * (0 - 0) + (0 - 0) * (0 - 0) + (position - cz) * (position - cz) - r ^ 2)
      = (2 * r) * (2 * r) by ring]
    nlinarith
  simp only [specClasses, spec_get_intersection, still_sphere, Point3D.sub, Vector3D.dot,
    hd, if_neg hdisc]
  have ht : (-(2 * (0 * ((0 : α) - 0) + 0 * (0 - 0) + 1 * (position - cz))) - 2 * r) / 2
      = cz - position - r := by ring
  rw [ht, if_pos heps]
  have hn := spec_normalize_neg_z sqrt hsq (-r) (by linarith)
  have hp : position + (cz - position - r) * 1 = cz - r := by ring
  simp only [mul_zero, add_zero, sub_self, hp]
  rw [show cz - r - cz = -r by ring, hn]

/-- A sphere that does not reach the z axis is missed by every ray along it. -/
theorem spec_axis_miss [LinearOrderedField α] [FloorRing α] (sqrt : α → α) (eps : α)
    (position cx cy cz r : α) (hfar : r ^ 2 < cx ^ 2 + cy ^ 2) :
    (specClasses sqrt eps).get_intersection (still_sphere cx cy cz r)
        ⟨⟨0, 0, position⟩, ⟨0, 0, 1⟩⟩ = none := by
  have hdisc : (2 * (0 * ((0 : α) - cx) + 0 * (0 - cy) + 1 * (position - cz)) *
        (2 * (0 * (0 - cx) + 0 * (0 - cy) + 1 * (position - cz))) -
      4 * ((0 - cx) * (0 - cx) + (0 - cy) * (0 - cy) + (position - cz) * (position - cz) - r ^ 2)
      < 0) := by
    nlinarith
  simp only [specClasses, spec_get_intersection, still_sphere, Point3D.sub, Vector3D.dot,
    if_pos hdisc]

/-- When exactly one sphere is hit, at a depth below `ZDIM`, the closest-hit loop
ends with that sphere, its hit point and its normal. -/
theorem closest_loop_unique_hit [LinearOrderedField α] (rc : RayClasses α)
    (sphere : Nat → Sphere3D α) (ray : Ray3D α) (s0 : Nat) (p0 : Point3D α)
    (n0 : Vector3D α) (hs0 : s0 < SPHERES)
    (hhit : rc.get_intersection (sphere s0) ray = some (p0, n0)) (hz : p0.pz < (ZDIM : α))
    (hmiss : ∀ s, s < SPHERES → s ≠ s0 → rc.get_intersection (sphere s) ray = none) :
    (closest_loop rc sphere ray SPHERES).closest = (s0 : Int) ∧
    (closest_loop rc sphere ray SPHERES).closest_p = p0 ∧
    (closest_loop rc sphere ray SPHERES).closest_n = n0 := by
  rcases closest_loop_inv rc sphere ray SPHERES with ⟨-, -, h3⟩ | ⟨s, hs, h1, h2, -, -, -⟩
  · exact absurd hz (h3 s0 hs0 p0 n0 hhit)
  · by_cases hne : s = s0
    · subst hne
      rw [hhit] at h2
      injection h2 with h2
      injection h2 with hp hn
      exact ⟨h1, hp.symm, hn.symm⟩
    · rw [hmiss s hs hne] at h2
      cases h2

/-- In the end-to-end scene the closest-hit loop of the raster-centre pixel ends
with sphere 0, hit point `(0,0,-2)` and normal `(0,0,-1)`. -/
theorem scenario_closest [LinearOrderedField α] [FloorRing α] (sqrt : α → α) (eps : α)
    (hsq : ∀ a : α, 0 ≤ a → sqrt (a * a) = a) (heps : eps < 3)
    (sphere : Nat → Sphere3D α) (h0 : sphere 0 = still_sphere 0 0 0 2)
    (hmiss : ∀ s, s < SPHERES → s ≠ 0 →
      (specClasses sqrt eps).get_intersection (sphere s)
        (primary_ray (specClasses sqrt eps) (-5) 300 300) = none) :
    (closest_loop (specClasses sqrt eps) sphere
      (primary_ray (specClasses sqrt eps) (-5) 300 300) SPHERES).closest = 0 ∧
    (closest_loop (specClasses sqrt eps) sphere
      (primary_ray (specClasses sqrt eps) (-5) 300 300) SPHERES).closest_p = ⟨0, 0, -2⟩ ∧
    (closest_loop (specClasses sqrt eps) sphere
      (primary_ray (specClasses sqrt eps) (-5) 300 300) SPHERES).closest_n = ⟨0, 0, -1⟩ := by
  have hit := spec_axis_hit sqrt eps hsq (-5) 0 2 (by norm_num) (by linarith)
  rw [show (0 : α) - 2 = -2 by norm_num] at hit
  rw [← primary_ray_center sqrt eps hsq (-5) (by norm_num), ← h0] at hit
  have := closest_loop_unique_hit (specClasses sqrt eps) sphere _ 0 _ _ (by decide) hit
    (by simp [ZDIM]; norm_num) hmiss
  simpa using this

/-- Slot 0 of `scenario_scene` holds the sphere of radius 2 at the origin. -/
theorem scenario_scene_zero [LinearOrderedField α] :
    (scenario_scene 0 : Sphere3D α) = still_sphere 0 0 0 2 :=
  if_pos rfl

/-- The spheres in slots 1 to 9 of `scenario_scene` miss the centre ray. -/
theorem scenario_scene_miss [LinearOrderedField α] [FloorRing α] (sqrt : α → α) (eps : α)
    (hsq : ∀ a : α, 0 ≤ a → sqrt (a * a) = a) (s : Nat) (hs : s ≠ 0) :
    (specClasses sqrt eps).get_intersection (scenario_scene s)
      (primary_ray (specClasses sqrt eps) (-5) 300 300) = none := by
  rw [primary_ray_center sqrt eps hsq (-5) (by norm_num), scenario_scene, if_neg hs]
  exact spec_axis_miss sqrt eps (-5) 100 0 0 1 (by norm_num)

/-- Normal mode stores `(127, 127, 0)` for the normal `(0,0,-1)`. -/
theorem normal_pixel_neg_z [LinearOrderedField α] [FloorRing α] :
    normal_pixel (⟨0, 0, -1⟩ : Vector3D α) = ⟨127, 127, 0⟩ := by
  have h1 : trunc ((127 : α) + 0 * 127) = 127 := by
    simp [trunc]
  have h2 : trunc ((127 : α) + -1 * 127) = 0 := by
    simp [trunc]
  simp only [normal_pixel, h1, h2]
  rfl

/-- The pixel stored for a hit in normal mode. -/
theorem trace_pixel_normal [LinearOrderedField α] [FloorRing α] (rc : RayClasses α)
    (position : α) (sphere : Nat → Sphere3D α) (color : Nat → ColorRGB α) (x y : Nat)
    (h : 0 ≤ (closest_loop rc sphere (primary_ray rc position x y) SPHERES).closest) :
    trace_pixel rc position "normal" sphere color x y =
      normal_pixel (closest_loop rc sphere (primary_ray rc position x y) SPHERES).closest_n := by
  unfold trace_pixel
  simp [h]

/-- The raster-centre pixel of the end-to-end scene in normal mode. -/
theorem scenario_pixel [LinearOrderedField α] [FloorRing α] (sqrt : α → α) (eps : α)
    (hsq : ∀ a : α, 0 ≤ a → sqrt (a * a) = a) (heps : eps < 3) (g : Globals α)
    (hpos : g.position = -5) (hmode : g.mode = "normal")
    (h0 : g.sphere 0 = still_sphere 0 0 0 2)
    (hmiss : ∀ s, s < SPHERES → s ≠ 0 →
      (specClasses sqrt eps).get_intersection (g.sphere s)
        (primary_ray (specClasses sqrt eps) (-5) 300 300) = none) :
    (ray_trace (specClasses sqrt eps) g).image 300 300 = ⟨127, 127, 0⟩ := by
  obtain ⟨hc, -, hn⟩ := scenario_closest sqrt eps hsq heps g.sphere h0 hmiss
  rw [ray_trace_image _ g 300 300 (by decide) (by decide), hpos, hmode,
    trace_pixel_normal _ _ _ _ _ _ (by rw [hc]), hn, normal_pixel_neg_z]

/-- C7 (amended): in the end-to-end scenario (sphere 0 of radius 2 centred at
the origin, no other sphere on the centre ray, camera at `(0,0,-5)`), the
raster-centre pixel `(300, 300)` maps to the image-plane point `(0,0,0)`, its
primary ray hits the sphere at `(0,0,-2)` with the normal `(0,0,-1)`, which
points toward the camera, and in normal mode the pixel written is
`(127, 127, 0)`: red and green equal 127 and blue is 0. -/
theorem center_pixel_normal_mode [LinearOrderedField α] [FloorRing α] (sqrt : α → α)
    (eps : α) (hsq : ∀ a : α, 0 ≤ a → sqrt (a * a) = a) (heps : eps < 3) (g : Globals α)
    (hpos : g.position = -5) (hmode : g.mode = "normal")
    (h0 : g.sphere 0 = still_sphere 0 0 0 2)
    (hmiss : ∀ s, s < SPHERES → s ≠ 0 →
      (specClasses sqrt eps).get_intersection (g.sphere s)
        (primary_ray (specClasses sqrt eps) (-5) 300 300) = none) :
    (sample_point 300 300 : Point3D α) = ⟨0, 0, 0⟩ ∧
    (specClasses sqrt eps).get_intersection (g.sphere 0)
        (primary_ray (specClasses sqrt eps) g.position 300 300) =
      some (⟨0, 0, -2⟩, ⟨0, 0, -1⟩) ∧
    (closest_loop (specClasses sqrt eps) g.sphere
      (primary_ray (specClasses sqrt eps) g.position 300 300) SPHERES).closest = 0 ∧
    (closest_loop (specClasses sqrt eps) g.sphere
      (primary_ray (specClasses sqrt eps) g.position 300 300) SPHERES).closest_n = ⟨0, 0, -1⟩ ∧
    0 < (⟨0, 0, -1⟩ : Vector3D α).dot
      ((⟨0, 0, g.position⟩ : Point3D α).sub ⟨0, 0, -2⟩) ∧
    (ray_trace (specClasses sqrt eps) g).image 300 300 = ⟨127, 127, 0⟩ := by
  obtain ⟨hc, -, hn⟩ := scenario_closest sqrt eps hsq heps g.sphere h0 hmiss
  have hit := spec_axis_hit sqrt eps hsq (-5) 0 2 (by norm_num) (by linarith)
  rw [show (0 : α) - 2 = -2 by norm_num,
    ← primary_ray_center sqrt eps hsq (-5) (by norm_num), ← h0] at hit
  refine ⟨sample_point_center, ?_, ?_, ?_, ?_, scenario_pixel sqrt eps hsq heps g hpos hmode h0 hmiss⟩
  · rw [hpos]
    exact hit
  · rw [hpos]
    exact hc
  · rw [hpos]
    exact hn
  · rw [hpos]
    simp only [Vector3D.dot, Point3D.sub]
    norm_num

/-- C7, witness: the end-to-end scene over the reals, with the real square root
and threshold 1/1000. -/
theorem center_pixel_normal_mode_witness :
    (∀ a : ℝ, 0 ≤ a → Real.sqrt (a * a) = a) ∧ (1 / 1000 : ℝ) < 3 ∧
    (globals_of "normal" scenario_scene : Globals ℝ).position = -5 ∧
    (ray_trace (specClasses Real.sqrt (1 / 1000))
      (globals_of "normal" scenario_scene)).image 300 300 = ⟨127, 127, 0⟩ :=
  ⟨fun _ ha => Real.sqrt_mul_self ha, by norm_num, rfl,
    (center_pixel_normal_mode Real.sqrt (1 / 1000) (fun _ ha => Real.sqrt_mul_self ha)
      (by norm_num) (globals_of "normal" scenario_scene) rfl rfl scenario_scene_zero
      (fun s _ hs =>
        scenario_scene_miss Real.sqrt (1 / 1000) (fun _ ha => Real.sqrt_mul_self ha) s hs)).2.2.2.2.2⟩

/-- C7, counterexample: in the end-to-end scene over the reals the pixel written
for the raster centre in normal mode does not have all three components above
127. -/
theorem center_pixel_not_all_above_127 :
    ¬ (127 < ((ray_trace (specClasses Real.sqrt (1 / 1000))
          (globals_of "normal" scenario_scene)).image 300 300).red ∧
       127 < ((ray_trace (specClasses Real.sqrt (1 / 1000))
          (globals_of "normal" scenario_scene)).image 300 300).green ∧
       127 < ((ray_trace (specClasses Real.sqrt (1 / 1000))
          (globals_of "normal" scenario_scene)).image 300 300).blue) := by
  rw [scenario_pixel Real.sqrt (1 / 1000) (fun _ ha => Real.sqrt_mul_self ha) (by norm_num)
    (globals_of "normal" scenario_scene) rfl rfl scenario_scene_zero
    (fun s _ hs =>
      scenario_scene_miss Real.sqrt (1 / 1000) (fun _ ha => Real.sqrt_mul_self ha) s hs)]
  decide

/-- C2, witness: in the end-to-end scene over the reals sphere 0 is hit by the
centre ray at depth -2, below `ZDIM`. -/
theorem closest_hit_is_nearest_lowest_index_witness :
    (∃ s, s < SPHERES ∧ ∃ p n,
      (specClasses Real.sqrt (1 / 1000)).get_intersection (scenario_scene s)
        (primary_ray (specClasses Real.sqrt (1 / 1000)) (-5) 300 300) = some (p, n) ∧
      p.pz < ((ZDIM : Nat) : ℝ)) ∧
    0 ≤ (closest_loop (specClasses Real.sqrt (1 / 1000)) scenario_scene
      (primary_ray (specClasses Real.sqrt (1 / 1000)) (-5) 300 300) SPHERES).closest := by
  have hsq : ∀ a : ℝ, 0 ≤ a → Real.sqrt (a * a) = a := fun _ ha => Real.sqrt_mul_self ha
  have hit := spec_axis_hit Real.sqrt (1 / 1000) hsq (-5) 0 2 (by norm_num) (by norm_num)
  rw [← primary_ray_center Real.sqrt (1 / 1000) hsq (-5) (by norm_num),
    ← scenario_scene_zero] at hit
  have h : ∃ s, s < SPHERES ∧ ∃ p n,
      (specClasses Real.sqrt (1 / 1000)).get_intersection (scenario_scene s)
        (primary_ray (specClasses Real.sqrt (1 / 1000)) (-5) 300 300) = some (p, n) ∧
      p.pz < ((ZDIM : Nat) : ℝ) :=
    ⟨0, by decide, _, _, hit, by simp [ZDIM]; norm_num⟩
  exact ⟨h, (closest_hit_is_nearest_lowest_index _ _ _ h).1⟩

/-- C2, counterexample: with the camera at `(0,0,-5)` and every sphere of
radius 2 centred at `(0,0,700)`, sphere 0 reports an intersection with the
centre ray (at depth 698), yet the closest-hit loop ends with `closest = -1`. -/
theorem far_hit_not_selected :
    (∃ s, s < SPHERES ∧
      ((specClasses Real.sqrt (1 / 1000)).get_intersection (far_scene s)
        (primary_ray (specClasses Real.sqrt (1 / 1000)) (-5) 300 300)).isSome = true) ∧
    (closest_loop (specClasses Real.sqrt (1 / 1000)) far_scene
      (primary_ray (specClasses Real.sqrt (1 / 1000)) (-5) 300 300) SPHERES).closest = -1 := by
  have hsq : ∀ a : ℝ, 0 ≤ a → Real.sqrt (a * a) = a := fun _ ha => Real.sqrt_mul_self ha
  have hit := spec_axis_hit Real.sqrt (1 / 1000) hsq (-5) 700 2 (by norm_num) (by norm_num)
  rw [← primary_ray_center Real.sqrt (1 / 1000) hsq (-5) (by norm_num)] at hit
  have hall : ∀ s, (specClasses Real.sqrt (1 / 1000)).get_intersection (far_scene s)
      (primary_ray (specClasses Real.sqrt (1 / 1000)) (-5) 300 300) =
        some (⟨0, 0, 700 - 2⟩, ⟨0, 0, -1⟩) := fun _ => hit
  refine ⟨⟨0, by decide, by rw [hall 0]; rfl⟩, ?_⟩
  rcases closest_loop_inv (specClasses Real.sqrt (1 / 1000)) far_scene
      (primary_ray (specClasses Real.sqrt (1 / 1000)) (-5) 300 300) SPHERES with
    ⟨h1, -, -⟩ | ⟨s, -, -, h2, h3, -, -⟩
  · exact h1
  · rw [hall s] at h2
    injection h2 with h2
    injection h2 with hp _
    rw [← hp] at h3
    simp [ZDIM] at h3
    norm_num at h3

/-- C4, witness: with every sphere away from the z axis the raster-centre pixel
is black after `ray_trace`, in phong mode, although the buffer held `(9,9,9)`. -/
theorem no_hit_pixel_is_black_witness :
    (globals_of "phong" offaxis_scene : Globals ℝ).image 300 300 = ⟨9, 9, 9⟩ ∧
    (ray_trace (specClasses Real.sqrt (1 / 1000))
      (globals_of "phong" offaxis_scene)).image 300 300 = ⟨0, 0, 0⟩ :=
  ⟨rfl, (no_hit_pixel_is_black (specClasses Real.sqrt (1 / 1000))
    (globals_of "phong" offaxis_scene)).1 300 300 (by decide) (by decide)
    (fun s _ => by
      have hsq : ∀ a : ℝ, 0 ≤ a → Real.sqrt (a * a) = a := fun _ ha => Real.sqrt_mul_self ha
      have hp : (globals_of "phong" offaxis_scene : Globals ℝ).position = -5 := rfl
      rw [hp, primary_ray_center Real.sqrt (1 / 1000) hsq (-5) (by norm_num)]
      exact spec_axis_miss Real.sqrt (1 / 1000) (-5) 100 0 0 1 (by norm_num))⟩

/-- Truncation of a non-negative value is its floor. -/
theorem trunc_of_nonneg [LinearOrderedField α] [FloorRing α] (q : α) (h : 0 ≤ q) :
    trunc q = ⌊q⌋ := by
  rw [trunc, if_pos h]

/-- Truncation keeps a value inside an integer interval that starts at 0. -/
theorem trunc_mem_range [LinearOrderedField α] [FloorRing α] (q : α) (m : Nat) (h0 : 0 ≤ q)
    (h1 : q ≤ (m : α)) : 0 ≤ trunc q ∧ trunc q ≤ (m : Int) := by
  rw [trunc_of_nonneg q h0]
  refine ⟨Int.floor_nonneg.2 h0, ?_⟩
  have h2 : ((⌊q⌋ : Int) : α) ≤ ((m : Int) : α) := by
    rw [Int.cast_natCast]
    exact le_trans (Int.floor_le q) h1
  exact Int.cast_le.1 h2

/-- An integer in [0,255] is stored in an `unsigned char` unchanged. -/
theorem to_uchar_of_range (z : Int) (h0 : 0 ≤ z) (h1 : z ≤ 255) : (to_uchar z : Int) = z := by
  unfold to_uchar
  omega

/-- One channel of normal mode: for a component in [-1,1] the stored byte is the
truncation of `127 + c * 127`, which lies in [0,254]. -/
theorem normal_channel [LinearOrderedField α] [FloorRing α] (c : α) (h0 : -1 ≤ c)
    (h1 : c ≤ 1) :
    (to_uchar (trunc (127 + c * 127)) : Int) = trunc (127 + c * 127) ∧
    0 ≤ trunc (127 + c * 127) ∧ trunc (127 + c * 127) ≤ 254 ∧
    to_uchar (trunc (127 + c * 127)) ≤ 254 := by
  have hr := trunc_mem_range (127 + c * 127) 254 (by linarith) (by push_cast; linarith)
  have hu := to_uchar_of_range _ hr.1 (by omega)
  refine ⟨hu, hr.1, hr.2, ?_⟩
  have : (to_uchar (trunc (127 + c * 127)) : Int) ≤ 254 := by
    rw [hu]
    exact hr.2
  omega

/-- C6: in normal mode, for every hit pixel of the raster whose selected normal
has each component in [-1,1], the red, green and blue channels written are the
truncations to an integer of `127 + 127*c` for `c = vx, vy, vz`, and each
written value lies in [0,254], so the conversion to an 8-bit channel does not
wrap. -/
theorem normal_mode_channels [LinearOrderedField α] [FloorRing α] (rc : RayClasses α)
    (g : Globals α) (x y : Nat) (hx : x < XDIM) (hy : y < YDIM) (hmode : g.mode = "normal")
    (hhit : 0 ≤ (closest_loop rc g.sphere (primary_ray rc g.position x y) SPHERES).closest)
    (hn : components_in_unit_range
      (closest_loop rc g.sphere (primary_ray rc g.position x y) SPHERES).closest_n) :
    ((((ray_trace rc g).image y x).red : Int) =
        trunc (127 + (closest_loop rc g.sphere
          (primary_ray rc g.position x y) SPHERES).closest_n.vx * 127) ∧
      (((ray_trace rc g).image y x).green : Int) =
        trunc (127 + (closest_loop rc g.sphere
          (primary_ray rc g.position x y) SPHERES).closest_n.vy * 127) ∧
      (((ray_trace rc g).image y x).blue : Int) =
        trunc (127 + (closest_loop rc g.sphere
          (primary_ray rc g.position x y) SPHERES).closest_n.vz * 127)) ∧
    ((ray_trace rc g).image y x).red ≤ 254 ∧
    ((ray_trace rc g).image y x).green ≤ 254 ∧
    ((ray_trace rc g).image y x).blue ≤ 254 := by
  rw [ray_trace_image rc g x y hx hy, hmode, trace_pixel_normal rc _ _ _ x y hhit]
  obtain ⟨⟨hx0, hx1⟩, ⟨hy0, hy1⟩, ⟨hz0, hz1⟩⟩ := hn
  have hr := normal_channel _ hx0 hx1
  have hg := normal_channel _ hy0 hy1
  have hb := normal_channel _ hz0 hz1
  exact ⟨⟨hr.1, hg.1, hb.1⟩, hr.2.2.2, hg.2.2.2, hb.2.2.2⟩

/-- C6, witness: the raster-centre pixel of the end-to-end scene over the reals,
whose selected normal is `(0,0,-1)`. -/
theorem normal_mode_channels_witness :
    components_in_unit_range
      (closest_loop (specClasses Real.sqrt (1 / 1000))
        (globals_of "normal" scenario_scene : Globals ℝ).sphere
        (primary_ray (specClasses Real.sqrt (1 / 1000))
          (globals_of "normal" scenario_scene : Globals ℝ).position 300 300)
        SPHERES).closest_n ∧
    ((ray_trace (specClasses Real.sqrt (1 / 1000))
      (globals_of "normal" scenario_scene)).image 300 300).blue ≤ 254 := by
  have hsq : ∀ a : ℝ, 0 ≤ a → Real.sqrt (a * a) = a := fun _ ha => Real.sqrt_mul_self ha
  obtain ⟨hc, -, hn⟩ := scenario_closest Real.sqrt (1 / 1000) hsq (by norm_num)
    scenario_scene scenario_scene_zero
    (fun s _ hs => scenario_scene_miss Real.sqrt (1 / 1000) hsq s hs)
  have hunit : components_in_unit_range
      (closest_loop (specClasses Real.sqrt (1 / 1000))
        (globals_of "normal" scenario_scene : Globals ℝ).sphere
        (primary_ray (specClasses Real.sqrt (1 / 1000))
          (globals_of "normal" scenario_scene : Globals ℝ).position 300 300)
        SPHERES).closest_n := by
    show components_in_unit_range
      (closest_loop (specClasses Real.sqrt (1 / 1000)) scenario_scene
        (primary_ray (specClasses Real.sqrt (1 / 1000)) (-5) 300 300) SPHERES).closest_n
    rw [hn]
    simp only [components_in_unit_range]
    norm_num
  exact ⟨hunit, (normal_mode_channels (specClasses Real.sqrt (1 / 1000))
    (globals_of "normal" scenario_scene) 300 300 (by decide) (by decide) rfl
    (by
      show 0 ≤ (closest_loop (specClasses Real.sqrt (1 / 1000)) scenario_scene
        (primary_ray (specClasses Real.sqrt (1 / 1000)) (-5) 300 300) SPHERES).closest
      rw [hc])
    hunit).2.2.2⟩

/-- The pixel stored for a hit in phong mode. -/
theorem trace_pixel_phong [LinearOrderedField α] [FloorRing α] (rc : RayClasses α)
    (position : α) (sphere : Nat → Sphere3D α) (color : Nat → ColorRGB α) (x y : Nat)
    (h : 0 ≤ (closest_loop rc sphere (primary_ray rc position x y) SPHERES).closest) :
    trace_pixel rc position "phong" sphere color x y =
      phong_pixel
        (phong_shades rc ⟨0, 0, position⟩
          (closest_loop rc sphere (primary_ray rc position x y) SPHERES) sphere color).1
        (phong_shades rc ⟨0, 0, position⟩
          (closest_loop rc sphere (primary_ray rc position x y) SPHERES) sphere color).2.1
        (phong_shades rc ⟨0, 0, position⟩
          (closest_loop rc sphere (primary_ray rc position x y) SPHERES) sphere color).2.2 := by
  unfold trace_pixel
  simp [h]

/-- One channel of phong mode: for three shade channels in [0,255] the average
is the floor of their mean, lies in [0,255] and is stored unchanged. -/
theorem average_channel [LinearOrderedField α] [FloorRing α] (c1 c2 c3 : α)
    (h1 : 0 ≤ c1 ∧ c1 ≤ 255) (h2 : 0 ≤ c2 ∧ c2 ≤ 255) (h3 : 0 ≤ c3 ∧ c3 ≤ 255) :
    average c1 c2 c3 = ⌊(c1 + c2 + c3) / 3⌋ ∧
    (to_uchar (average c1 c2 c3) : Int) = average c1 c2 c3 ∧
    to_uchar (average c1 c2 c3) ≤ 255 := by
  unfold average
  have hq0 : 0 ≤ (c1 + c2 + c3) / 3 := by
    apply div_nonneg
    · linarith [h1.1, h2.1, h3.1]
    · norm_num
  have hq1 : (c1 + c2 + c3) / 3 ≤ ((255 : Nat) : α) := by
    rw [div_le_iff₀ (by norm_num)]
    push_cast
    linarith [h1.2, h2.2, h3.2]
  have hr := trunc_mem_range _ 255 hq0 hq1
  have hu := to_uchar_of_range _ hr.1 hr.2
  refine ⟨trunc_of_nonneg _ hq0, hu, ?_⟩
  have : (to_uchar (trunc ((c1 + c2 + c3) / 3)) : Int) ≤ 255 := by
    rw [hu]
    exact hr.2
  omega

/-- C5: in phong mode, for every hit pixel of the raster, each channel written
to the image is the average (mean truncated to an integer) of the
corresponding channels of the three shades `pixel1`, `pixel2`, `pixel3`, stored
in a byte; and when each shade channel lies in [0,255], the written value is
`floor((c1 + c2 + c3) / 3)` and lies in [0,255], so the byte does not wrap. -/
theorem phong_mode_channels [LinearOrderedField α] [FloorRing α] (rc : RayClasses α)
    (g : Globals α) (x y : Nat) (p1 p2 p3 : ColorRGB α) (hx : x < XDIM) (hy : y < YDIM)
    (hmode : g.mode = "phong")
    (hhit : 0 ≤ (closest_loop rc g.sphere (primary_ray rc g.position x y) SPHERES).closest)
    (hp : phong_shades rc ⟨0, 0, g.position⟩
      (closest_loop rc g.sphere (primary_ray rc g.position x y) SPHERES) g.sphere g.color
        = (p1, p2, p3)) :
    (ray_trace rc g).image y x =
      ⟨to_uchar (trunc ((p1.R + p2.R + p3.R) / 3)), to_uchar (trunc ((p1.G + p2.G + p3.G) / 3)),
       to_uchar (trunc ((p1.B + p2.B + p3.B) / 3))⟩ ∧
    (channels_in_range p1 → channels_in_range p2 → channels_in_range p3 →
      ((((ray_trace rc g).image y x).red : Int) = ⌊(p1.R + p2.R + p3.R) / 3⌋ ∧
       (((ray_trace rc g).image y x).green : Int) = ⌊(p1.G + p2.G + p3.G) / 3⌋ ∧
       (((ray_trace rc g).image y x).blue : Int) = ⌊(p1.B + p2.B + p3.B) / 3⌋) ∧
      ((ray_trace rc g).image y x).red ≤ 255 ∧ ((ray_trace rc g).image y x).green ≤ 255 ∧
      ((ray_trace rc g).image y x).blue ≤ 255) := by
  rw [ray_trace_image rc g x y hx hy, hmode, trace_pixel_phong rc _ _ _ x y hhit, hp]
  refine ⟨rfl, ?_⟩
  intro h1 h2 h3
  have hr := average_channel p1.R p2.R p3.R h1.1 h2.1 h3.1
  have hg := average_channel p1.G p2.G p3.G h1.2.1 h2.2.1 h3.2.1
  have hb := average_channel p1.B p2.B p3.B h1.2.2 h2.2.2 h3.2.2
  simp only [phong_pixel]
  refine ⟨⟨?_, ?_, ?_⟩, hr.2.2, hg.2.2, hb.2.2⟩
  · rw [hr.2.1, hr.1]
  · rw [hg.2.1, hg.1]
  · rw [hb.2.1, hb.1]

/-- The shade of the specification's Phong model has its channels in [0,255]. -/
theorem spec_GetShade_in_range [LinearOrderedField α] [FloorRing α] (sqrt : α → α)
    (sh : Phong α) (point : Point3D α) (normal : Vector3D α) :
    channels_in_range (spec_GetShade sqrt sh point normal) := by
  simp only [channels_in_range, spec_GetShade, ColorRGB.set]
  refine ⟨⟨le_max_left _ _, ?_⟩, ⟨le_max_left _ _, ?_⟩, ⟨le_max_left _ _, ?_⟩⟩ <;>
    exact max_le (by norm_num) (min_le_left _ _)

/-- C5, witness: the raster-centre pixel of the end-to-end scene over the reals
in phong mode; its three shades are clamped and its red channel is at most 255. -/
theorem phong_mode_channels_witness :
    0 ≤ (closest_loop (specClasses Real.sqrt (1 / 1000))
        (globals_of "phong" scenario_scene : Globals ℝ).sphere
        (primary_ray (specClasses Real.sqrt (1 / 1000))
          (globals_of "phong" scenario_scene : Globals ℝ).position 300 300)
        SPHERES).closest ∧
    ((ray_trace (specClasses Real.sqrt (1 / 1000))
      (globals_of "phong" scenario_scene)).image 300 300).red ≤ 255 := by
  have hsq : ∀ a : ℝ, 0 ≤ a → Real.sqrt (a * a) = a := fun _ ha => Real.sqrt_mul_self ha
  obtain ⟨hc, -, -⟩ := scenario_closest Real.sqrt (1 / 1000) hsq (by norm_num)
    scenario_scene scenario_scene_zero
    (fun s _ hs => scenario_scene_miss Real.sqrt (1 / 1000) hsq s hs)
  have hhit : 0 ≤ (closest_loop (specClasses Real.sqrt (1 / 1000))
        (globals_of "phong" scenario_scene : Globals ℝ).sphere
        (primary_ray (specClasses Real.sqrt (1 / 1000))
          (globals_of "phong" scenario_scene : Globals ℝ).position 300 300)
        SPHERES).closest := by
    show 0 ≤ (closest_loop (specClasses Real.sqrt (1 / 1000)) scenario_scene
      (primary_ray (specClasses Real.sqrt (1 / 1000)) (-5) 300 300) SPHERES).closest
    rw [hc]
  exact ⟨hhit, ((phong_mode_channels (specClasses Real.sqrt (1 / 1000))
    (globals_of "phong" scenario_scene) 300 300 _ _ _ (by decide) (by decide) rfl hhit rfl).2
    (spec_GetShade_in_range _ _ _ _) (spec_GetShade_in_range _ _ _ _)
    (spec_GetShade_in_range _ _ _ _)).2.1⟩

/-- C3: in phong mode the material given to the three shaders depends only on
whether the hit point is in shadow for at least one of the three lights: if
so, every shader holds `(color[closest], 0.4, 0.0, 0.0, 1)`, otherwise every
shader holds `(color[closest], 0.4, 0.4, 0.4, 10)`.  The three shaders hold the
same coefficients, their base colour is the colour at the index of the selected
sphere, and for every hit pixel of the raster in phong mode the pixel written is
computed from the shades of exactly these shaders. -/
theorem phong_material_by_shadow [LinearOrderedField α] [FloorRing α] (rc : RayClasses α)
    (g : Globals α) (closest_p : Point3D α) (closest : Int) :
    ((in_shadow rc closest_p (light_dir1 rc) closest g.sphere SPHERES = true ∨
      in_shadow rc closest_p (light_dir2 rc) closest g.sphere SPHERES = true ∨
      in_shadow rc closest_p (light_dir3 rc) closest g.sphere SPHERES = true) →
      has_material (phong_shaders rc ⟨0, 0, g.position⟩ closest_p closest g.sphere g.color).1
        (g.color closest.toNat) 0.4 0.0 0.0 1 ∧
      has_material (phong_shaders rc ⟨0, 0, g.position⟩ closest_p closest g.sphere g.color).2.1
        (g.color closest.toNat) 0.4 0.0 0.0 1 ∧
      has_material (phong_shaders rc ⟨0, 0, g.position⟩ closest_p closest g.sphere g.color).2.2
        (g.color closest.toNat) 0.4 0.0 0.0 1) ∧
    ((in_shadow rc closest_p (light_dir1 rc) closest g.sphere SPHERES = false ∧
      in_shadow rc closest_p (light_dir2 rc) closest g.sphere SPHERES = false ∧
      in_shadow rc closest_p (light_dir3 rc) closest g.sphere SPHERES = false) →
      has_material (phong_shaders rc ⟨0, 0, g.position⟩ closest_p closest g.sphere g.color).1
        (g.color closest.toNat) 0.4 0.4 0.4 10 ∧
      has_material (phong_shaders rc ⟨0, 0, g.position⟩ closest_p closest g.sphere g.color).2.1
        (g.color closest.toNat) 0.4 0.4 0.4 10 ∧
      has_material (phong_shaders rc ⟨0, 0, g.position⟩ closest_p closest g.sphere g.color).2.2
        (g.color closest.toNat) 0.4 0.4 0.4 10) ∧
    (∃ kd ks kp : α,
      has_material (phong_shaders rc ⟨0, 0, g.position⟩ closest_p closest g.sphere g.color).1
        (g.color closest.toNat) 0.4 kd ks kp ∧
      has_material (phong_shaders rc ⟨0, 0, g.position⟩ closest_p closest g.sphere g.color).2.1
        (g.color closest.toNat) 0.4 kd ks kp ∧
      has_material (phong_shaders rc ⟨0, 0, g.position⟩ closest_p closest g.sphere g.color).2.2
        (g.color closest.toNat) 0.4 kd ks kp) ∧
    (∀ x y, x < XDIM → y < YDIM → g.mode = "phong" →
      0 ≤ (closest_loop rc g.sphere (primary_ray rc g.position x y) SPHERES).closest →
      (ray_trace rc g).image y x =
        phong_pixel
          (rc.GetShade
            (phong_shaders rc ⟨0, 0, g.position⟩
              (closest_loop rc g.sphere (primary_ray rc g.position x y) SPHERES).closest_p
              (closest_loop rc g.sphere (primary_ray rc g.position x y) SPHERES).closest
              g.sphere g.color).1
            (closest_loop rc g.sphere (primary_ray rc g.position x y) SPHERES).closest_p
            (closest_loop rc g.sphere (primary_ray rc g.position x y) SPHERES).closest_n)
          (rc.GetShade
            (phong_shaders rc ⟨0, 0, g.position⟩
              (closest_loop rc g.sphere (primary_ray rc g.position x y) SPHERES).closest_p
              (closest_loop rc g.sphere (primary_ray rc g.position x y) SPHERES).closest
              g.sphere g.color).2.1
            (closest_loop rc g.sphere (primary_ray rc g.position x y) SPHERES).closest_p
            (closest_loop rc g.sphere (primary_ray rc g.position x y) SPHERES).closest_n)
          (rc.GetShade
            (phong_shaders rc ⟨0, 0, g.position⟩
              (closest_loop rc g.sphere (primary_ray rc g.position x y) SPHERES).closest_p
              (closest_loop rc g.sphere (primary_ray rc g.position x y) SPHERES).closest
              g.sphere g.color).2.2
            (closest_loop rc g.sphere (primary_ray rc g.position x y) SPHERES).closest_p
            (closest_loop rc g.sphere (primary_ray rc g.position x y) SPHERES).closest_n)) := by
  have hyes : any_shadow rc closest_p closest g.sphere = true →
      has_material (phong_shaders rc ⟨0, 0, g.position⟩ closest_p closest g.sphere g.color).1
        (g.color closest.toNat) 0.4 0.0 0.0 1 ∧
      has_material (phong_shaders rc ⟨0, 0, g.position⟩ closest_p closest g.sphere g.color).2.1
        (g.color closest.toNat) 0.4 0.0 0.0 1 ∧
      has_material (phong_shaders rc ⟨0, 0, g.position⟩ closest_p closest g.sphere g.color).2.2
        (g.color closest.toNat) 0.4 0.0 0.0 1 := by
    intro h
    rw [phong_shaders, if_pos h]
    exact ⟨⟨rfl, rfl, rfl, rfl, rfl⟩, ⟨rfl, rfl, rfl, rfl, rfl⟩, ⟨rfl, rfl, rfl, rfl, rfl⟩⟩
  have hno : any_shadow rc closest_p closest g.sphere = false →
      has_material (phong_shaders rc ⟨0, 0, g.position⟩ closest_p closest g.sphere g.color).1
        (g.color closest.toNat) 0.4 0.4 0.4 10 ∧
      has_material (phong_shaders rc ⟨0, 0, g.position⟩ closest_p closest g.sphere g.color).2.1
        (g.color closest.toNat) 0.4 0.4 0.4 10 ∧
      has_material (phong_shaders rc ⟨0, 0, g.position⟩ closest_p closest g.sphere g.color).2.2
        (g.color closest.toNat) 0.4 0.4 0.4 10 := by
    intro h
    rw [phong_shaders, if_neg (by rw [h]; decide)]
    exact ⟨⟨rfl, rfl, rfl, rfl, rfl⟩, ⟨rfl, rfl, rfl, rfl, rfl⟩, ⟨rfl, rfl, rfl, rfl, rfl⟩⟩
  refine ⟨?_, ?_, ?_, ?_⟩
  · intro h
    apply hyes
    simp only [any_shadow, Bool.or_eq_true]
    tauto
  · rintro ⟨h1, h2, h3⟩
    apply hno
    simp only [any_shadow, h1, h2, h3]
    rfl
  · cases h : any_shadow rc closest_p closest g.sphere with
    | true => exact ⟨_, _, _, hyes h⟩
    | false => exact ⟨_, _, _, hno h⟩
  · intro x y hx hy hmode hhit
    rw [ray_trace_image rc g x y hx hy, hmode, trace_pixel_phong rc _ _ _ x y hhit]
    rfl

/-- The position `keyboard` leaves behind for a key other than `q`. -/
theorem keyboard_position [LinearOrderedField α] [FloorRing α] (rc : RayClasses α)
    (key : Char) (g : Globals α) (hq : key ≠ 'q') :
    ∃ g1, keyboard rc key g = some g1 ∧
      g1.position =
        if key = '+' ∧ g.position > -10 then g.position - 0.5
        else if key = '-' ∧ g.position < -5 then g.position + 0.5
        else g.position := by
  unfold keyboard
  rw [if_neg hq]
  refine ⟨_, rfl, ?_⟩
  simp only [(ray_trace_frame rc _).1]
  split_ifs <;> rfl

/-- One key press keeps the camera distance a multiple of 0.5 in [-10,-5]. -/
theorem keyboard_keeps_range [LinearOrderedField α] [FloorRing α] (rc : RayClasses α)
    (key : Char) (g g1 : Globals α) (hk : keyboard rc key g = some g1)
    (h : -10 ≤ g.position ∧ g.position ≤ -5 ∧ ∃ k : Int, g.position = k * 0.5) :
    -10 ≤ g1.position ∧ g1.position ≤ -5 ∧ ∃ k : Int, g1.position = k * 0.5 := by
  have hq : key ≠ 'q' := by
    rintro rfl
    simp [keyboard] at hk
  obtain ⟨g2, h2, hpos⟩ := keyboard_position rc key g hq
  rw [hk] at h2
  injection h2 with h2
  subst h2
  obtain ⟨hlo, hhi, k, hk2⟩ := h
  have half : (0.5 : α) = 1 / 2 := by norm_num
  rw [hpos]
  split_ifs with h1 h3
  · have hk3 : ((-20 : Int) : α) < (k : α) := by
      have := h1.2
      rw [hk2, half] at this
      push_cast
      linarith
    have hk4 : (-19 : Int) ≤ k := by
      have := Int.cast_lt.1 hk3
      omega
    have hk5 : ((-19 : Int) : α) ≤ (k : α) := Int.cast_le.2 hk4
    push_cast at hk5
    refine ⟨?_, ?_, k - 1, ?_⟩
    · rw [hk2, half]
      linarith
    · rw [half]
      linarith
    · rw [hk2]
      push_cast
      ring
  · have hk3 : (k : α) < ((-10 : Int) : α) := by
      have := h3.2
      rw [hk2, half] at this
      push_cast
      linarith
    have hk4 : k ≤ (-11 : Int) := by
      have := Int.cast_lt.1 hk3
      omega
    have hk5 : (k : α) ≤ ((-11 : Int) : α) := Int.cast_le.2 hk4
    push_cast at hk5
    refine ⟨?_, ?_, k + 1, ?_⟩
    · rw [half]
      linarith
    · rw [hk2, half]
      linarith
    · rw [hk2]
      push_cast
      ring
  · exact ⟨hlo, hhi, k, hk2⟩

/-- A run of key presses without `q` keeps the camera distance a multiple of 0.5
in [-10,-5]. -/
theorem keyboard_run_keeps_range [LinearOrderedField α] [FloorRing α] (rc : RayClasses α)
    (keys : List Char) (g : Globals α) (hq : 'q' ∉ keys)
    (h : -10 ≤ g.position ∧ g.position ≤ -5 ∧ ∃ k : Int, g.position = k * 0.5) :
    ∃ g1, keyboard_run rc keys g = some g1 ∧
      -10 ≤ g1.position ∧ g1.position ≤ -5 ∧ ∃ k : Int, g1.position = k * 0.5 := by
  induction keys generalizing g with
  | nil => exact ⟨g, rfl, h⟩
  | cons key keys ih =>
    have hkey : key ≠ 'q' := by
      rintro rfl
      exact hq (List.mem_cons_self _ _)
    have hrest : 'q' ∉ keys := fun hm => hq (List.mem_cons_of_mem _ hm)
    obtain ⟨g2, h2, -⟩ := keyboard_position rc key g hkey
    obtain ⟨g3, h3, hr⟩ := ih g2 hrest (keyboard_keeps_range rc key g g2 h2 h)
    refine ⟨g3, ?_, hr⟩
    rw [keyboard_run, h2]
    exact h3

/-- C8: starting from `position = -5`, after every finite sequence of key
presses handled by `keyboard` (any keys except `q`) the camera distance
satisfies `-10 ≤ position ≤ -5` and is a multiple of 0.5.  In every state a `+`
key subtracts exactly 0.5 when `position > -10` and leaves `position` unchanged
when `position = -10`; a `-` key adds exactly 0.5 when `position < -5` and leaves
it unchanged when `position = -5`; every other key leaves it unchanged. -/
theorem camera_distance_clamped [LinearOrderedField α] [FloorRing α] (rc : RayClasses α)
    (g : Globals α) (keys : List Char) (hstart : g.position = -5) (hq : 'q' ∉ keys) :
    (∃ g1, keyboard_run rc keys g = some g1 ∧
      -10 ≤ g1.position ∧ g1.position ≤ -5 ∧ ∃ k : Int, g1.position = k * 0.5) ∧
    (∀ (key : Char) (h : Globals α), key ≠ 'q' →
      ∃ h1, keyboard rc key h = some h1 ∧
        (key = '+' → -10 < h.position → h1.position = h.position - 0.5) ∧
        (key = '+' → h.position = -10 → h1.position = h.position) ∧
        (key = '-' → h.position < -5 → h1.position = h.position + 0.5) ∧
        (key = '-' → h.position = -5 → h1.position = h.position) ∧
        (key ≠ '+' → key ≠ '-' → h1.position = h.position)) := by
  constructor
  · apply keyboard_run_keeps_range rc keys g hq
    rw [hstart]
    refine ⟨by norm_num, le_refl _, -10, ?_⟩
    norm_num
  · intro key h hkey
    obtain ⟨h1, hk, hpos⟩ := keyboard_position rc key h hkey
    refine ⟨h1, hk, ?_, ?_, ?_, ?_, ?_⟩
    · intro hp hlt
      rw [hpos, if_pos ⟨hp, hlt⟩]
    · intro hp heq
      rw [hpos, if_neg (by rw [heq]; simp), if_neg (by rw [hp]; simp)]
    · intro hm hlt
      rw [hpos, if_neg (by rw [hm]; simp), if_pos ⟨hm, hlt⟩]
    · intro hm heq
      rw [hpos, if_neg (by rw [hm]; simp), if_neg (by rw [heq]; simp)]
    · intro hp hm
      rw [hpos, if_neg (by simp [hp]), if_neg (by simp [hm])]

/-- C8, witness: the keys `+ + - n x +` pressed in the end-to-end scene over the
reals, which starts at `position = -5`. -/
theorem camera_distance_clamped_witness :
    (globals_of "phong" scenario_scene : Globals ℝ).position = -5 ∧
    'q' ∉ ['+', '+', '-', 'n', 'x', '+'] ∧
    ∃ g1, keyboard_run (specClasses Real.sqrt (1 / 1000)) ['+', '+', '-', 'n', 'x', '+']
        (globals_of "phong" scenario_scene) = some g1 ∧
      -10 ≤ g1.position ∧ g1.position ≤ -5 ∧ ∃ k : Int, g1.position = k * 0.5 :=
  ⟨rfl, by decide,
    (camera_distance_clamped (specClasses Real.sqrt (1 / 1000))
      (globals_of "phong" scenario_scene) ['+', '+', '-', 'n', 'x', '+'] rfl (by decide)).1⟩

/-- What one tick of `timer` changes and what it keeps. -/
theorem timer_effect [LinearOrderedField α] [FloorRing α] (rc : RayClasses α)
    (cos sin : α → α) (g : Globals α) :
    (timer rc cos sin g).angle = g.angle + 0.1 ∧
    (timer rc cos sin g).centerRadius = g.centerRadius ∧
    (timer rc cos sin g).sphere 0 = g.sphere 0 ∧
    ((timer rc cos sin g).sphere 1).center.px =
      (g.sphere 0).center.px + g.centerRadius * cos (g.angle + 0.1) ∧
    ((timer rc cos sin g).sphere 1).center.py =
      (g.sphere 0).center.py + g.centerRadius * sin (g.angle + 0.1) ∧
    ((timer rc cos sin g).sphere 1).center.pz = (g.sphere 1).center.pz ∧
    ((timer rc cos sin g).sphere 1).radius = (g.sphere 1).radius := by
  simp [timer, ray_trace, Function.update]

/-- Ticks of `timer` keep `centerRadius`, sphere 0, and the depth and radius of
sphere 1. -/
theorem timer_run_frame [LinearOrderedField α] [FloorRing α] (rc : RayClasses α)
    (cos sin : α → α) (n : Nat) (g : Globals α) :
    (timer_run rc cos sin n g).centerRadius = g.centerRadius ∧
    (timer_run rc cos sin n g).sphere 0 = g.sphere 0 ∧
    ((timer_run rc cos sin n g).sphere 1).center.pz = (g.sphere 1).center.pz ∧
    ((timer_run rc cos sin n g).sphere 1).radius = (g.sphere 1).radius ∧
    (timer_run rc cos sin n g).angle = g.angle + n * 0.1 := by
  induction n with
  | zero => simp [timer_run]
  | succ n ih =>
    obtain ⟨h1, h2, h3, h4, h5⟩ := ih
    obtain ⟨t1, t2, t3, -, -, t6, t7⟩ := timer_effect rc cos sin (timer_run rc cos sin n g)
    rw [timer_run]
    refine ⟨t2.trans h1, t3.trans h2, t6.trans h3, t7.trans h4, ?_⟩
    rw [t1, h5]
    push_cast
    ring

/-- C9: over the reals, each tick of `timer` increases `angle` by 0.1 and places
the centre of `sphere[1]` at `px = sphere[0].px + centerRadius*cos(angle)` and
`py = sphere[0].py + centerRadius*sin(angle)` for the new angle, leaving the
`pz` and radius of `sphere[1]` and the whole of `sphere[0]` unchanged; hence
after every tick that follows the set-up in `main` the distance between the two
centres measured in the x-y plane equals `centerRadius`, the initial 3D
separation of the two centres. -/
theorem timer_keeps_orbit (rc : RayClasses ℝ) (g : Globals ℝ) (n : Nat) :
    ((timer rc Real.cos Real.sin g).angle = g.angle + 0.1 ∧
      ((timer rc Real.cos Real.sin g).sphere 1).center.px =
        (g.sphere 0).center.px + g.centerRadius * Real.cos (timer rc Real.cos Real.sin g).angle ∧
      ((timer rc Real.cos Real.sin g).sphere 1).center.py =
        (g.sphere 0).center.py + g.centerRadius * Real.sin (timer rc Real.cos Real.sin g).angle ∧
      ((timer rc Real.cos Real.sin g).sphere 1).center.pz = (g.sphere 1).center.pz ∧
      ((timer rc Real.cos Real.sin g).sphere 1).radius = (g.sphere 1).radius ∧
      (timer rc Real.cos Real.sin g).sphere 0 = g.sphere 0 ∧
      (timer rc Real.cos Real.sin g).centerRadius = g.centerRadius) ∧
    (Real.sqrt
        ((((timer_run rc Real.cos Real.sin (n + 1) (main_centerRadius Real.sqrt g)).sphere 1).center.px -
            ((timer_run rc Real.cos Real.sin (n + 1) (main_centerRadius Real.sqrt g)).sphere 0).center.px) ^ 2 +
         (((timer_run rc Real.cos Real.sin (n + 1) (main_centerRadius Real.sqrt g)).sphere 1).center.py -
            ((timer_run rc Real.cos Real.sin (n + 1) (main_centerRadius Real.sqrt g)).sphere 0).center.py) ^ 2)
        = (timer_run rc Real.cos Real.sin (n + 1) (main_centerRadius Real.sqrt g)).centerRadius ∧
      (timer_run rc Real.cos Real.sin (n + 1) (main_centerRadius Real.sqrt g)).centerRadius =
        Real.sqrt (((g.sphere 1).center.px - (g.sphere 0).center.px) ^ 2 +
          ((g.sphere 1).center.py - (g.sphere 0).center.py) ^ 2 +
          ((g.sphere 1).center.pz - (g.sphere 0).center.pz) ^ 2) ∧
      ((timer_run rc Real.cos Real.sin (n + 1) (main_centerRadius Real.sqrt g)).sphere 1).center.pz =
        (g.sphere 1).center.pz ∧
      ((timer_run rc Real.cos Real.sin (n + 1) (main_centerRadius Real.sqrt g)).sphere 1).radius =
        (g.sphere 1).radius ∧
      (timer_run rc Real.cos Real.sin (n + 1) (main_centerRadius Real.sqrt g)).sphere 0 = g.sphere 0 ∧
      (timer_run rc Real.cos Real.sin (n + 1) (main_centerRadius Real.sqrt g)).angle =
        g.angle + (n + 1) * 0.1) := by
  constructor
  · obtain ⟨t1, t2, t3, t4, t5, t6, t7⟩ := timer_effect rc Real.cos Real.sin g
    exact ⟨t1, by rw [t1]; exact t4, by rw [t1]; exact t5, t6, t7, t3, t2⟩
  · obtain ⟨f1, f2, f3, f4, f5⟩ :=
      timer_run_frame rc Real.cos Real.sin n (main_centerRadius Real.sqrt g)
    obtain ⟨t1, t2, t3, t4, t5, t6, t7⟩ :=
      timer_effect rc Real.cos Real.sin
        (timer_run rc Real.cos Real.sin n (main_centerRadius Real.sqrt g))
    have hcr : (main_centerRadius Real.sqrt g).centerRadius =
        Real.sqrt (((g.sphere 1).center.px - (g.sphere 0).center.px) ^ 2 +
          ((g.sphere 1).center.py - (g.sphere 0).center.py) ^ 2 +
          ((g.sphere 1).center.pz - (g.sphere 0).center.pz) ^ 2) := rfl
    have hs : (main_centerRadius Real.sqrt g).sphere = g.sphere := rfl
    have hang : (main_centerRadius Real.sqrt g).angle = g.angle := rfl
    have hnn : 0 ≤ (main_centerRadius Real.sqrt g).centerRadius := by
      rw [hcr]
      exact Real.sqrt_nonneg _
    rw [timer_run]
    refine ⟨?_, ?_, ?_, ?_, ?_, ?_⟩
    · rw [t4, t5, t3, t2, f1]
      have hsq : ∀ c θ : ℝ, (c * Real.cos θ) ^ 2 + (c * Real.sin θ) ^ 2 = c * c := by
        intro c θ
        have := Real.cos_sq_add_sin_sq θ
        nlinarith [this]
      rw [add_sub_cancel_left, add_sub_cancel_left, hsq, Real.sqrt_mul_self hnn]
    · rw [t2, f1, hcr]
    · rw [t6, f3, hs]
    · rw [t7, f4, hs]
    · rw [t3, f2, hs]
    · rw [t1, f5, hang]
      ring

/-- Every sphere of `far_scene` is hit by the centre ray at depth 698. -/
theorem far_scene_hit (s : Nat) :
    (specClasses Real.sqrt (1 / 1000)).get_intersection (far_scene s)
      (primary_ray (specClasses Real.sqrt (1 / 1000)) (-5) 300 300) =
        some (⟨0, 0, 698⟩, ⟨0, 0, -1⟩) := by
  have hsq : ∀ a : ℝ, 0 ≤ a → Real.sqrt (a * a) = a := fun _ ha => Real.sqrt_mul_self ha
  have hit := spec_axis_hit Real.sqrt (1 / 1000) hsq (-5) 700 2 (by norm_num) (by norm_num)
  rw [← primary_ray_center Real.sqrt (1 / 1000) hsq (-5) (by norm_num),
    show (700 : ℝ) - 2 = 698 by norm_num] at hit
  exact hit

/-- C10, witness: with the camera at `(0,0,-5)` and every sphere of radius 2
centred at `(0,0,700)`, the centre ray is intersected (at depth 698) and the
raster-centre pixel is left at `(0,0,0)` in normal mode, though the buffer held
`(9,9,9)`. -/
theorem closest_selected_iff_hit_below_ZDIM_witness :
    (specClasses Real.sqrt (1 / 1000)).get_intersection (far_scene 0)
      (primary_ray (specClasses Real.sqrt (1 / 1000)) (-5) 300 300) =
        some (⟨0, 0, 698⟩, ⟨0, 0, -1⟩) ∧
    (globals_of "normal" far_scene : Globals ℝ).image 300 300 = ⟨9, 9, 9⟩ ∧
    (ray_trace (specClasses Real.sqrt (1 / 1000))
      (globals_of "normal" far_scene)).image 300 300 = ⟨0, 0, 0⟩ :=
  ⟨far_scene_hit 0, rfl,
    (closest_selected_iff_hit_below_ZDIM (specClasses Real.sqrt (1 / 1000))
      (globals_of "normal" far_scene)
      (primary_ray (specClasses Real.sqrt (1 / 1000)) (-5) 300 300) 300 300).2
      (by decide) (by decide)
      (fun s _ p n hp => by
        have h := far_scene_hit s
        have hp2 : (specClasses Real.sqrt (1 / 1000)).get_intersection (far_scene s)
            (primary_ray (specClasses Real.sqrt (1 / 1000)) (-5) 300 300) = some (p, n) := hp
        rw [h] at hp2
        injection hp2 with hp2
        injection hp2 with h1 _
        rw [← h1]
        norm_num)⟩

end Proofs

end RayTrace
